import Mathlib

/-!
Verification of the route comparison tool (`route_compare.py`).

This file gives a shallow embedding of the data model and the operations of
the tool: the `Route` record with its construction-time normalisation
(`Route.__post_init__`), the free-form text parser (`RouteParser._parse_text`
with its regex cascade `_parse_cisco_route_line` / `_parse_generic_route_line`),
the dictionary field-mapping normaliser (`RouteParser._parse_route_dict`) used
by the JSON and tabular strategies, and the subnet-keyed comparator
(`RouteComparator.compare` / `_routes_equal` / `_get_route_differences`).

Python regular expressions are embedded by a small token machine
(`mtGo`) implementing leftmost, greedy, backtracking matching over
single-character classes, literals, optional groups and capture groups -
exactly the constructs the source patterns use.  Python string booleans
(truthiness), `str.strip`, `str.rstrip`, `str.isdigit`, `int(...)` and the
IPv4 parsing done by `ipaddress.ip_network` (dotted quad, octets 0-255, at
most three digits, no leading zeros, prefix 0-32; IPv6 is out of scope per
the specification) are modelled explicitly below.
-/

/-! ### Python character and string primitives -/

/-- Python `str.strip` / `\s` whitespace set (ASCII part). -/
def isSpaceCh (c : Char) : Bool :=
  c == ' ' || c == '\t' || c == '\n' || c == '\r' || c == '\x0b' || c == '\x0c'

/-- Python `\S`. -/
def isNonSpaceCh (c : Char) : Bool := !isSpaceCh c

/-- ASCII lower-casing, as `str.lower` acts on the interface names here. -/
def pyLowerCh (c : Char) : Char :=
  if 'A' ≤ c ∧ c ≤ 'Z' then Char.ofNat (c.toNat + 32) else c

def stripL (l : List Char) : List Char :=
  ((l.dropWhile isSpaceCh).reverse.dropWhile isSpaceCh).reverse

/-- Python `str.strip()`. -/
def pyStrip (s : String) : String := String.mk (stripL s.toList)

/-- Python `str.lower()`. -/
def pyLower (s : String) : String := String.mk (s.toList.map pyLowerCh)

def hasPrefL : List Char → List Char → Bool
  | [], _ => true
  | _ :: _, [] => false
  | p :: ps, c :: cs => p == c && hasPrefL ps cs

/-- Substring search, Python `pat in s` (for `s` given as a char list). -/
def containsSub : List Char → List Char → Bool
  | [], pat => pat.isEmpty
  | c :: t, pat => hasPrefL pat (c :: t) || containsSub t pat

/-- Python `pat in s`. -/
def strContains (s pat : String) : Bool := containsSub s.toList pat.toList

/-- Python `s.startswith(pat)`. -/
def strStarts (s pat : String) : Bool := hasPrefL pat.toList s.toList

/-- Value of a run of decimal digits (the way `int` reads an all-digit string). -/
def digitsVal (l : List Char) : Nat := l.foldl (fun a c => a * 10 + (c.toNat - 48)) 0

/-- Nonempty and all ASCII digits: Python `str.isdigit` as used on route fields. -/
def allDigits (l : List Char) : Bool := !l.isEmpty && l.all Char.isDigit

/-- Python `int(s)` for an optionally signed decimal string with surrounding
whitespace; `none` models `ValueError`. -/
def pyInt (s : String) : Option Int :=
  match stripL s.toList with
  | '+' :: r => if allDigits r then some (digitsVal r : Int) else none
  | '-' :: r => if allDigits r then some (-(digitsVal r : Int)) else none
  | r => if allDigits r then some (digitsVal r : Int) else none

/-- Fuelled binary popcount, `bin(n).count(the digit one)`. -/
def popCountF : Nat → Nat → Nat
  | 0, _ => 0
  | f + 1, n => if n = 0 then 0 else n % 2 + popCountF f (n / 2)

def popCount (n : Nat) : Nat := popCountF n n

/-! ### IPv4 parsing and formatting (`ipaddress.ip_network`, IPv4 only) -/

/-- Split a character list at every dot, Python `s.split(".")`. -/
def splitDots : List Char → List (List Char)
  | [] => [[]]
  | c :: t =>
    if c = '.' then [] :: splitDots t
    else
      match splitDots t with
      | h :: r => (c :: h) :: r
      | [] => [[c]]

/-- One dotted-quad octet: nonempty, at most three ASCII digits, no leading
zero (unless the octet is exactly "0"), value at most 255 - the checks
`ipaddress` performs per octet. -/
def parseOct (l : List Char) : Option Nat :=
  if (!l.isEmpty && decide (l.length ≤ 3) && l.all Char.isDigit &&
      (l.length == 1 || l.head? != some '0') && decide (digitsVal l ≤ 255)) then
    some (digitsVal l)
  else none

/-- Parse a dotted-quad IPv4 address to its 32-bit numeric value. -/
def parseIPv4L (l : List Char) : Option Nat :=
  match splitDots l with
  | [a, b, c, d] =>
    match parseOct a, parseOct b, parseOct c, parseOct d with
    | some x, some y, some z, some w => some (x * 16777216 + y * 65536 + z * 256 + w)
    | _, _, _, _ => none
  | _ => none

def parseIPv4 (s : String) : Option Nat := parseIPv4L s.toList

/-- Decimal digit character. -/
def dCh (d : Nat) : Char := Char.ofNat (48 + d)

/-- Decimal rendering of one octet value (0-255). -/
def octL (m : Nat) : List Char :=
  if m < 10 then [dCh m]
  else if m < 100 then [dCh (m / 10), dCh (m % 10)]
  else [dCh (m / 100), dCh (m / 10 % 10), dCh (m % 10)]

/-- Dotted-quad rendering of a 32-bit value, `str(IPv4Address(n))`. -/
def ipStrL (n : Nat) : List Char :=
  octL (n / 16777216 % 256) ++ '.' ::
    (octL (n / 65536 % 256) ++ '.' :: (octL (n / 256 % 256) ++ '.' :: octL (n % 256)))

def strOfIp (n : Nat) : String := String.mk (ipStrL n)

/-- Network base address: clear the host bits below prefix `k`. -/
def netBase (a : Nat) (k : Nat) : Nat := a / 2 ^ (32 - k) * 2 ^ (32 - k)

/-- `ipaddress.ip_network(f"{d}/{p}", strict=False).network_address`:
`some` of the 32-bit network base when `d` is a valid IPv4 address and `p` a
prefix in range, `none` for the `ValueError` cases. -/
def ipNetAddr (d : String) (p : Int) : Option Nat :=
  if 0 ≤ p ∧ p ≤ 32 then (parseIPv4 d).map (fun a => netBase a p.toNat) else none

/-! ### The Route model (`Route` dataclass with `__post_init__`) -/

structure Route where
  destination : String
  prefixLength : Int
  nextHop : Option String := none
  interface : Option String := none
  protocol : Option String := none
  metric : Option Int := none
  adminDistance : Option Int := none
  rawLine : Option String := none
deriving DecidableEq

/-- `,` or `]`, the characters `Route.__post_init__` strips from the end of
the protocol. -/
def isProtoPunct (c : Char) : Bool := c == ',' || c == ']'

/-- Python `s.rstrip(",]")`. -/
def pyRstripPunct (s : String) : String :=
  String.mk ((s.toList.reverse.dropWhile isProtoPunct).reverse)

/-- Destination normalisation of `__post_init__`: replace by the canonical
network base address when `destination/prefixLength` parses, else keep. -/
def canonDest (d : String) (p : Int) : String :=
  match ipNetAddr d p with
  | some n => strOfIp n
  | none => d

/-- Protocol normalisation of `__post_init__` (guarded by truthiness). -/
def normProto : Option String → Option String
  | none => none
  | some s => if s ≠ "" then some (pyRstripPunct s) else some s

/-- Interface normalisation of `__post_init__`: any truthy name whose
lower-casing starts with "vlan" collapses to the literal "vlan". -/
def normIface : Option String → Option String
  | none => none
  | some s => if s ≠ "" ∧ strStarts (pyLower s) "vlan" then some "vlan" else some s

/-- `Route.__post_init__`: the normalisation run at construction time.
It never fails; invalid destinations pass through unchanged. -/
def mkRoute (r : Route) : Route :=
  { r with
    destination := canonDest r.destination r.prefixLength
    protocol := normProto r.protocol
    interface := normIface r.interface }

/-- `Route.subnet`: the f-string `"{destination}/{prefix_length}"`. -/
def subnetKey (r : Route) : String := r.destination ++ "/" ++ toString r.prefixLength

/-! ### A token machine for the source's regular expressions

The source patterns use only literals, the classes `\d` `\s` `\S` `[A-Z*+]`,
greedy `+` `*` `?` over single-character classes, optional non-capturing
groups and named capture groups, plus the word boundary `\b` of the generic
fallback pattern.  `mtGo` implements Python's leftmost/greedy/backtracking
semantics for those constructs; groups are delimited by open/close markers
and captured by position difference. -/

inductive Tok where
  | lit (c : Char)
  | cls1 (f : Char → Bool)
  | many0 (f : Char → Bool)
  | many1 (f : Char → Bool)
  | opt (sub : List Tok)
  | openG (n : String)
  | closeG (n : String)
  | endW

/-- Python `\w` (ASCII part), for `\b`. -/
def isWordCh (c : Char) : Bool := c.isAlphanum || c == '_'

/-- Backtracking matcher.  Greedy repetition is realised by preferring the
branch that consumes a character; `opt` prefers the branch containing the
group; `endW` is the trailing `\b` (next char absent or not a word char).
Captures are `(name, text)` pairs; `fuel` only bounds the recursion. -/
def mtGo : Nat → List Tok → List Char → List (String × List Char) →
    List (String × String) → Option (List (String × String) × List Char)
  | 0, _, _, _, _ => none
  | _ + 1, [], s, _, done => some (done, s)
  | f + 1, Tok.lit c :: ts, s, stk, done =>
    match s with
    | [] => none
    | x :: s' => if x == c then mtGo f ts s' stk done else none
  | f + 1, Tok.cls1 g :: ts, s, stk, done =>
    match s with
    | [] => none
    | x :: s' => if g x then mtGo f ts s' stk done else none
  | f + 1, Tok.many0 g :: ts, s, stk, done =>
    match s with
    | [] => mtGo f ts [] stk done
    | x :: s' =>
      if g x then
        match mtGo f (Tok.many0 g :: ts) s' stk done with
        | some r => some r
        | none => mtGo f ts (x :: s') stk done
      else mtGo f ts (x :: s') stk done
  | f + 1, Tok.many1 g :: ts, s, stk, done =>
    match s with
    | [] => none
    | x :: s' => if g x then mtGo f (Tok.many0 g :: ts) s' stk done else none
  | f + 1, Tok.opt sub :: ts, s, stk, done =>
    (match mtGo f (sub ++ ts) s stk done with
     | some r => some r
     | none => mtGo f ts s stk done)
  | f + 1, Tok.openG n :: ts, s, stk, done => mtGo f ts s ((n, s) :: stk) done
  | f + 1, Tok.closeG n :: ts, s, stk, done =>
    match stk with
    | [] => none
    | (_, s0) :: stk' =>
      mtGo f ts s stk' ((n, String.mk (s0.take (s0.length - s.length))) :: done)
  | f + 1, Tok.endW :: ts, s, stk, done =>
    match s with
    | [] => mtGo f ts [] stk done
    | x :: _ => if isWordCh x then none else mtGo f ts s stk done

def mtFuel : Nat := 1000000

/-- Anchored match (`re.match`, or `re.search` of a `^`-anchored pattern). -/
def matchAt (ts : List Tok) (s : List Char) : Option (List (String × String)) :=
  (mtGo mtFuel ts s [] []).map (·.1)

/-- Unanchored `re.search`: try each start position, leftmost first. -/
def searchGo (ts : List Tok) : List Char → Option (List (String × String))
  | [] => (mtGo mtFuel ts [] [] []).map (·.1)
  | s@(_ :: t) =>
    match mtGo mtFuel ts s [] [] with
    | some (d, _) => some d
    | none => searchGo ts t

/-- Capture lookup (`match.groupdict().get(n)`, absent group gives `none`). -/
def capS (caps : List (String × String)) (n : String) : Option String :=
  (caps.find? (·.1 == n)).map (·.2)

def lits (s : String) : List Tok := s.toList.map Tok.lit

def ipToks : List Tok :=
  [Tok.many1 Char.isDigit, Tok.lit '.', Tok.many1 Char.isDigit, Tok.lit '.',
   Tok.many1 Char.isDigit, Tok.lit '.', Tok.many1 Char.isDigit]

/-- `^(?P<dest>\d+\.\d+\.\d+\.\d+)/(?P<pfx>\d+),\s+ubest/mbest:\s*\d+/\d+`
(the Nexus route header, matched with `re.match` on the stripped line). -/
def headerToks : List Tok :=
  [Tok.openG "dest"] ++ ipToks ++ [Tok.closeG "dest", Tok.lit '/',
   Tok.openG "pfx", Tok.many1 Char.isDigit, Tok.closeG "pfx", Tok.lit ',',
   Tok.many1 isSpaceCh] ++ lits "ubest/mbest:" ++
  [Tok.many0 isSpaceCh, Tok.many1 Char.isDigit, Tok.lit '/', Tok.many1 Char.isDigit]

/-- `^\s*\*via\s+(?P<nh>ip)(?:%(?P<vrf>\S+))?,\s*(?P<intf>\S+),\s*`
`\[(?P<ad>\d+)/(?P<metric>\d+)\],\s*(?P<age>\S+),\s*(?P<protocol>\S+)`. -/
def via1Toks : List Tok :=
  [Tok.many0 isSpaceCh] ++ lits "*via" ++ [Tok.many1 isSpaceCh, Tok.openG "nh"] ++
  ipToks ++ [Tok.closeG "nh",
   Tok.opt [Tok.lit '%', Tok.openG "vrf", Tok.many1 isNonSpaceCh, Tok.closeG "vrf"],
   Tok.lit ',', Tok.many0 isSpaceCh,
   Tok.openG "intf", Tok.many1 isNonSpaceCh, Tok.closeG "intf",
   Tok.lit ',', Tok.many0 isSpaceCh, Tok.lit '[',
   Tok.openG "ad", Tok.many1 Char.isDigit, Tok.closeG "ad", Tok.lit '/',
   Tok.openG "metric", Tok.many1 Char.isDigit, Tok.closeG "metric", Tok.lit ']',
   Tok.lit ',', Tok.many0 isSpaceCh,
   Tok.openG "age", Tok.many1 isNonSpaceCh, Tok.closeG "age",
   Tok.lit ',', Tok.many0 isSpaceCh,
   Tok.openG "protocol", Tok.many1 isNonSpaceCh, Tok.closeG "protocol"]

/-- Second `*via` variant: no interface field before the `[ad/metric]`. -/
def via2Toks : List Tok :=
  [Tok.many0 isSpaceCh] ++ lits "*via" ++ [Tok.many1 isSpaceCh, Tok.openG "nh"] ++
  ipToks ++ [Tok.closeG "nh",
   Tok.opt [Tok.lit '%', Tok.openG "vrf", Tok.many1 isNonSpaceCh, Tok.closeG "vrf"],
   Tok.lit ',', Tok.many0 isSpaceCh, Tok.lit '[',
   Tok.openG "ad", Tok.many1 Char.isDigit, Tok.closeG "ad", Tok.lit '/',
   Tok.openG "metric", Tok.many1 Char.isDigit, Tok.closeG "metric", Tok.lit ']',
   Tok.lit ',', Tok.many0 isSpaceCh,
   Tok.openG "age", Tok.many1 isNonSpaceCh, Tok.closeG "age",
   Tok.lit ',', Tok.many0 isSpaceCh,
   Tok.openG "protocol", Tok.many1 isNonSpaceCh, Tok.closeG "protocol"]

/-- Third `*via` variant: interface but no optional VRF suffix. -/
def via3Toks : List Tok :=
  [Tok.many0 isSpaceCh] ++ lits "*via" ++ [Tok.many1 isSpaceCh, Tok.openG "nh"] ++
  ipToks ++ [Tok.closeG "nh", Tok.lit ',', Tok.many0 isSpaceCh,
   Tok.openG "intf", Tok.many1 isNonSpaceCh, Tok.closeG "intf",
   Tok.lit ',', Tok.many0 isSpaceCh, Tok.lit '[',
   Tok.openG "ad", Tok.many1 Char.isDigit, Tok.closeG "ad", Tok.lit '/',
   Tok.openG "metric", Tok.many1 Char.isDigit, Tok.closeG "metric", Tok.lit ']',
   Tok.lit ',', Tok.many0 isSpaceCh,
   Tok.openG "age", Tok.many1 isNonSpaceCh, Tok.closeG "age",
   Tok.lit ',', Tok.many0 isSpaceCh,
   Tok.openG "protocol", Tok.many1 isNonSpaceCh, Tok.closeG "protocol"]

/-- `[A-Z*+]`. -/
def isLegacyProtoCh (c : Char) : Bool := ('A' ≤ c && c ≤ 'Z') || c == '*' || c == '+'

/-- Legacy `(?P<protocol>[A-Z*+]?\s*)?(?P<dest>ip)/(?P<prefix>\d+)\s+via\s+`
`(?P<nh>ip)(?:,\s*(?P<intf>\S+))?`, searched unanchored. -/
def legacy1Toks : List Tok :=
  [Tok.opt [Tok.openG "protocol", Tok.opt [Tok.cls1 isLegacyProtoCh],
            Tok.many0 isSpaceCh, Tok.closeG "protocol"],
   Tok.openG "dest"] ++ ipToks ++ [Tok.closeG "dest", Tok.lit '/',
   Tok.openG "pfx", Tok.many1 Char.isDigit, Tok.closeG "pfx",
   Tok.many1 isSpaceCh] ++ lits "via" ++ [Tok.many1 isSpaceCh,
   Tok.openG "nh"] ++ ipToks ++ [Tok.closeG "nh",
   Tok.opt [Tok.lit ',', Tok.many0 isSpaceCh,
            Tok.openG "intf", Tok.many1 isNonSpaceCh, Tok.closeG "intf"]]

/-- Legacy bracket form `...[AD/metric] via nh(?:,\s*\d+:\d+:\d+,\s*intf)?`. -/
def legacy2Toks : List Tok :=
  [Tok.opt [Tok.openG "protocol", Tok.opt [Tok.cls1 isLegacyProtoCh],
            Tok.many0 isSpaceCh, Tok.closeG "protocol"],
   Tok.openG "dest"] ++ ipToks ++ [Tok.closeG "dest", Tok.lit '/',
   Tok.openG "pfx", Tok.many1 Char.isDigit, Tok.closeG "pfx",
   Tok.many1 isSpaceCh, Tok.lit '[',
   Tok.openG "ad", Tok.many1 Char.isDigit, Tok.closeG "ad", Tok.lit '/',
   Tok.openG "metric", Tok.many1 Char.isDigit, Tok.closeG "metric", Tok.lit ']',
   Tok.many1 isSpaceCh] ++ lits "via" ++ [Tok.many1 isSpaceCh,
   Tok.openG "nh"] ++ ipToks ++ [Tok.closeG "nh",
   Tok.opt [Tok.lit ',', Tok.many0 isSpaceCh,
            Tok.many1 Char.isDigit, Tok.lit ':', Tok.many1 Char.isDigit,
            Tok.lit ':', Tok.many1 Char.isDigit, Tok.lit ',', Tok.many0 isSpaceCh,
            Tok.openG "intf", Tok.many1 isNonSpaceCh, Tok.closeG "intf"]]

/-- Legacy simple form `(?P<dest>ip)/(?P<prefix>\d+)\s+(?P<nh>ip)`. -/
def legacy3Toks : List Tok :=
  [Tok.openG "dest"] ++ ipToks ++ [Tok.closeG "dest", Tok.lit '/',
   Tok.openG "pfx", Tok.many1 Char.isDigit, Tok.closeG "pfx",
   Tok.many1 isSpaceCh, Tok.openG "nh"] ++ ipToks ++ [Tok.closeG "nh"]

/-- `\d{1,3}` with greedy order 3, 2, 1. -/
def oct3Toks : List Tok :=
  [Tok.cls1 Char.isDigit, Tok.opt [Tok.cls1 Char.isDigit, Tok.opt [Tok.cls1 Char.isDigit]]]

/-- `\b(?:\d{1,3}\.){3}\d{1,3}(?:/\d{1,2})?\b` body (the leading boundary is
checked by the scanner, the trailing one by `endW`). -/
def genericIpToks : List Tok :=
  [Tok.openG "m"] ++ oct3Toks ++ [Tok.lit '.'] ++ oct3Toks ++ [Tok.lit '.'] ++
  oct3Toks ++ [Tok.lit '.'] ++ oct3Toks ++
  [Tok.opt ([Tok.lit '/', Tok.cls1 Char.isDigit, Tok.opt [Tok.cls1 Char.isDigit]]),
   Tok.closeG "m", Tok.endW]

/-- `re.findall` of the generic IP pattern: scan left to right, emit
non-overlapping matches, resume after each match. -/
def findAllGo : Nat → Option Char → List Char → List String
  | 0, _, _ => []
  | _ + 1, _, [] => []
  | f + 1, prev, s@(x :: t) =>
    let boundary := match prev with
      | none => true
      | some p => !isWordCh p
    if boundary then
      match mtGo mtFuel genericIpToks s [] [] with
      | some (caps, rest) =>
        let m := (capS caps "m").getD ""
        let consumed := s.length - rest.length
        m :: findAllGo f ((s.take consumed).getLast?) rest
      | none => findAllGo f (some x) t
    else findAllGo f (some x) t

def findAllIps (l : List Char) : List String := findAllGo (l.length + 1) none l

/-! ### `RouteParser._parse_cisco_route_line` and `_parse_generic_route_line` -/

/-- Truthiness of an optional string field (Python `None` and `""` are falsy). -/
def truthyOS : Option String → Bool
  | none => false
  | some s => s ≠ ""

/-- `int(groups[n]) if groups.get(n) else None` for an all-digit capture. -/
def capDigitsInt (caps : List (String × String)) (n : String) : Option Int :=
  match capS caps n with
  | none => none
  | some s => if s ≠ "" then some (digitsVal s.toList : Int) else none

/-- Route built from a `*via` continuation match: empty destination and
prefix 0, to be completed by the enclosing text-parser state. -/
def viaRouteOf (line : String) (caps : List (String × String)) : Route :=
  mkRoute
    { destination := ""
      prefixLength := 0
      nextHop := capS caps "nh"
      interface := capS caps "intf"
      protocol := capS caps "protocol"
      metric := capDigitsInt caps "metric"
      adminDistance := capDigitsInt caps "ad"
      rawLine := some line }

/-- `groups.get("protocol", "").strip() or None` of the legacy patterns. -/
def legacyProtoOf (caps : List (String × String)) : Option String :=
  match capS caps "protocol" with
  | none => none
  | some s => let t := pyStrip s; if t = "" then none else some t

/-- Route built from a legacy single-line match. -/
def legacyRouteOf (line : String) (caps : List (String × String)) : Route :=
  mkRoute
    { destination := (capS caps "dest").getD ""
      prefixLength := (digitsVal ((capS caps "pfx").getD "").toList : Int)
      nextHop := capS caps "nh"
      interface := capS caps "intf"
      protocol := legacyProtoOf caps
      metric := capDigitsInt caps "metric"
      adminDistance := capDigitsInt caps "ad"
      rawLine := some line }

/-- `RouteParser._parse_cisco_route_line`: Nexus header, then the three
`*via` variants, then the three legacy patterns, first match wins. -/
def parseCiscoLine (line : String) : Option Route :=
  let l := line.toList
  match matchAt headerToks (stripL l) with
  | some caps =>
    some (mkRoute
      { destination := (capS caps "dest").getD ""
        prefixLength := (digitsVal ((capS caps "pfx").getD "").toList : Int)
        rawLine := some line })
  | none =>
    match matchAt via1Toks l with
    | some caps => some (viaRouteOf line caps)
    | none =>
      match matchAt via2Toks l with
      | some caps => some (viaRouteOf line caps)
      | none =>
        match matchAt via3Toks l with
        | some caps => some (viaRouteOf line caps)
        | none =>
          match searchGo legacy1Toks l with
          | some caps => some (legacyRouteOf line caps)
          | none =>
            match searchGo legacy2Toks l with
            | some caps => some (legacyRouteOf line caps)
            | none =>
              match searchGo legacy3Toks l with
              | some caps => some (legacyRouteOf line caps)
              | none => none

/-- Split at the single `/` of a generic `a.b.c.d/p` token
(`destination, prefix = dest_ip.split("/")`). -/
def splitSlash (l : List Char) : List Char × List Char :=
  match l with
  | [] => ([], [])
  | c :: t => if c = '/' then ([], t) else
      let r := splitSlash t
      (c :: r.1, r.2)

/-- `RouteParser._parse_generic_route_line`: first IPv4-looking token is the
destination (prefix 32 when bare), second if any is the next hop. -/
def parseGenericLine (line : String) : Option Route :=
  let ips := findAllIps line.toList
  match ips with
  | [] => none
  | destIp :: rest =>
    let dp :=
      if containsSub destIp.toList ['/'] then
        let (d, p) := splitSlash destIp.toList
        (String.mk d, (digitsVal p : Int))
      else (destIp, (32 : Int))
    some (mkRoute
      { destination := dp.1
        prefixLength := dp.2
        nextHop := rest.head?
        rawLine := some line })

/-- The per-line cascade of `_parse_text`:
`_parse_cisco_route_line(line) or _parse_generic_route_line(line)`. -/
def parseRouteLine (line : String) : Option Route :=
  match parseCiscoLine line with
  | some r => some r
  | none => parseGenericLine line

/-! ### `RouteParser._parse_text`: the two-line state machine -/

/-- The blank/comment/banner line filter of `_parse_text` (applied to the
stripped line). -/
def textSkipLine (l : String) : Bool :=
  l == "" || strStarts l "#" || strStarts l "!" ||
  strContains l "IP Route Table for VRF" ||
  strContains l "\x27*\x27 denotes best ucast next-hop" ||
  strContains l "\x27**\x27 denotes best mcast next-hop" ||
  strContains l "\x27[x/y]\x27 denotes [preference/metric]" ||
  strContains l "\x27%<string>\x27 in via output denotes VRF" ||
  strStarts l "Leaf-" || strStarts l "show " ||
  strContains l "Total entries displayed:" ||
  strContains l "Capability codes:"

/-- The ISIS infrastructure-route filter applied by every strategy:
`route.protocol and "isis-isis_infra" in route.protocol`. -/
def isisRoute (r : Route) : Bool :=
  match r.protocol with
  | none => false
  | some p => p ≠ "" && strContains p "isis-isis_infra"

/-- Truthiness of the pending `current_destination` (it is `None` or a header
destination, held here with the pending prefix). -/
def truthySt : Option (String × Int) → Bool
  | none => false
  | some (d, _) => d ≠ ""

/-- The loop body of `_parse_text`, carrying the pending
`current_destination` / `current_prefix` pair.  Mirrors the branch structure
(and Python truthiness tests) of the source:
header lines set the state and emit nothing; continuation lines are
completed from the state, which is NOT cleared; complete single-line routes
are emitted and clear the state; anything else is dropped. -/
def parseTextGo : Option (String × Int) → List String → List Route
  | _, [] => []
  | st, line :: rest =>
    let l := pyStrip line
    if textSkipLine l then parseTextGo st rest
    else
      match parseRouteLine l with
      | none => parseTextGo st rest
      | some r =>
        if isisRoute r then parseTextGo st rest
        else if r.destination ≠ "" ∧ r.prefixLength ≠ 0 ∧ ¬ truthyOS r.nextHop then
          parseTextGo (some (r.destination, r.prefixLength)) rest
        else if truthyOS r.nextHop ∧ r.destination = "" ∧ truthySt st then
          match st with
          | some (d, p) =>
            { r with destination := d, prefixLength := p } :: parseTextGo st rest
          | none => parseTextGo st rest
        else if r.destination ≠ "" ∧ r.prefixLength ≠ 0 then
          r :: parseTextGo none rest
        else parseTextGo st rest

/-- `RouteParser._parse_text` on a list of lines. -/
def parseTextLines (lines : List String) : List Route := parseTextGo none lines

/-- Variant of the text parser in which the pending header state is also
cleared as soon as one continuation route completes it - the behaviour the
specification's state-reset sentence describes.  Kept only to compare its
output with `parseTextLines`; it is NOT the behaviour of the source. -/
def parseTextResetGo : Option (String × Int) → List String → List Route
  | _, [] => []
  | st, line :: rest =>
    let l := pyStrip line
    if textSkipLine l then parseTextResetGo st rest
    else
      match parseRouteLine l with
      | none => parseTextResetGo st rest
      | some r =>
        if isisRoute r then parseTextResetGo st rest
        else if r.destination ≠ "" ∧ r.prefixLength ≠ 0 ∧ ¬ truthyOS r.nextHop then
          parseTextResetGo (some (r.destination, r.prefixLength)) rest
        else if truthyOS r.nextHop ∧ r.destination = "" ∧ truthySt st then
          match st with
          | some (d, p) =>
            { r with destination := d, prefixLength := p } :: parseTextResetGo none rest
          | none => parseTextResetGo st rest
        else if r.destination ≠ "" ∧ r.prefixLength ≠ 0 then
          r :: parseTextResetGo none rest
        else parseTextResetGo st rest

def parseTextLinesReset (lines : List String) : List Route := parseTextResetGo none lines

/-! ### `RouteParser._parse_route_dict`: the field-mapping normaliser -/

/-- A loosely-typed record value as the JSON / tabular strategies see it. -/
inductive PyVal where
  | str (s : String)
  | int (n : Int)
  | none
deriving DecidableEq

/-- Python truthiness of a record value. -/
def pyTruthy : PyVal → Bool
  | .str s => s ≠ ""
  | .int n => n ≠ 0
  | .none => false

/-- Python `str(v)`. -/
def pyStr : PyVal → String
  | .str s => s
  | .int n => toString n
  | .none => "None"

/-- Python `int(v)` for values already checked to be digit-like. -/
def pyValInt : PyVal → Int
  | .str s => (pyInt s).getD 0
  | .int n => n
  | .none => 0

/-- A record: an ordered string-keyed mapping. -/
def PyDict := List (String × PyVal)

/-- `data.get(f)`: the stored value, `PyVal.none` when the key is absent. -/
def dGet (data : PyDict) (f : String) : PyVal :=
  match data.find? (·.1 == f) with
  | some kv => kv.2
  | Option.none => PyVal.none

/-- `f in data`. -/
def dHas (data : PyDict) (f : String) : Bool := (data.find? (·.1 == f)).isSome

/-- Python `a or b` on record values: `a` when truthy, else `b`. -/
def pyOr (a b : PyVal) : PyVal := if pyTruthy a then a else b

/-- First-match-wins candidate field resolution:
`for field in fields: if field in data and data[field]: str(data[field]).strip()`. -/
def firstField (data : PyDict) : List String → Option String
  | [] => Option.none
  | f :: fs =>
    if dHas data f && pyTruthy (dGet data f) then some (pyStrip (pyStr (dGet data f)))
    else firstField data fs

/-- CIDR parse of a destination containing `/`
(`ipaddress.ip_network(destination, strict=False)`): address part a valid
IPv4 address and an all-digit prefix at most 32 (the dotted-netmask suffix
`ipaddress` would also accept is not exercised by any claim). -/
def parseNetStr (s : String) : Option (Nat × Nat) :=
  match s.toList.splitOn '/' with
  | [a, b] =>
    match parseIPv4L a with
    | some addr =>
      if allDigits b && decide (digitsVal b ≤ 32) then some (addr, digitsVal b)
      else Option.none
    | Option.none => Option.none
  | _ => Option.none

/-- Dotted-mask popcount / bare-integer mask resolution for one mask value
(`sum(bin(int(x)).count(...) for x in mask_val.split("."))`, or `int(mask_val)`);
`none` models the exception swallowed by `except: continue`. -/
def maskToPfx (s : String) : Option Int :=
  if containsSub s.toList ['.'] then
    let parts := s.toList.splitOn '.'
    let vals := parts.map (fun p => pyInt (String.mk p))
    if vals.all Option.isSome then
      some ((vals.map (fun v => popCount (v.getD 0).natAbs)).sum : Int)
    else Option.none
  else pyInt s

/-- The mask-field loop: first mask field whose value is present, not `None`,
and resolves without an exception. -/
def resolveMask (data : PyDict) : List String → Option Int
  | [] => Option.none
  | f :: fs =>
    if dHas data f && dGet data f != PyVal.none then
      match maskToPfx (pyStr (dGet data f)) with
      | some p => some p
      | Option.none => resolveMask data fs
    else resolveMask data fs

/-- `metric` / `admin_distance` keeping rule:
`int(v) if v and str(v).isdigit() else None`. -/
def keepDigits (v : PyVal) : Option Int :=
  if pyTruthy v && allDigits (pyStr v).toList then some (pyValInt v) else Option.none

def destFields : List String := ["destination", "network", "dest", "subnet", "prefix"]
def maskFields : List String := ["mask", "prefix_length", "prefixlen", "netmask"]
def nhFields : List String := ["next_hop", "nexthop", "gateway", "via"]
def intFields : List String := ["interface", "intf", "egress_intf", "outgoing_interface"]
def protoFields : List String := ["protocol", "proto", "source"]

/-- `RouteParser._parse_route_dict`. -/
def parseRouteDict (data : PyDict) : Option Route :=
  match firstField data destFields with
  | Option.none => Option.none
  | some dest0 =>
    let dp : String × Int :=
      if containsSub dest0.toList ['/'] then
        match parseNetStr dest0 with
        | some (addr, plen) => (strOfIp (netBase addr plen), (plen : Int))
        | Option.none =>
          let parts := dest0.toList.splitOn '/'
          (String.mk (parts.headD []),
           (pyInt (String.mk ((parts.get? 1).getD []))).getD 32)
      else
        (dest0, (resolveMask data maskFields).getD 32)
    some (mkRoute
      { destination := dp.1
        prefixLength := dp.2
        nextHop := firstField data nhFields
        interface := firstField data intFields
        protocol := firstField data protoFields
        metric := keepDigits (pyOr (dGet data "metric") (dGet data "cost"))
        adminDistance := keepDigits (pyOr (dGet data "admin_distance") (dGet data "ad"))
        rawLine := Option.none })

/-- The shared record loop of `_parse_json` / `_parse_csv`: parse each
record, drop unparseable ones and ISIS infrastructure routes. -/
def parseRecords (rows : List PyDict) : List Route :=
  rows.foldr
    (fun d acc =>
      match parseRouteDict d with
      | some r => if isisRoute r then acc else r :: acc
      | Option.none => acc)
    []

/-! ### `RouteComparator` -/

/-- `self.pre_routes[k]` / `self.post_routes[k]`: first route with the key. -/
def listFind (l : List Route) (k : String) : Option Route :=
  l.find? (fun r => subnetKey r == k)

/-- `self.pre_route_details[k]`: all routes with the key, in input order. -/
def detailList (l : List Route) (k : String) : List Route :=
  l.filter (fun r => subnetKey r == k)

/-- Insertion-ordered distinct elements (Python dict key order / set
membership; only the membership and the count are relied on). -/
def dedupFirst {α : Type} [DecidableEq α] : List α → List α
  | [] => []
  | x :: xs => x :: (dedupFirst xs).filter (· ≠ x)

/-- The `(next_hop, interface, protocol)` comparison triple. -/
def tripleOf (r : Route) : Option String × Option String × Option String :=
  (r.nextHop, r.interface, r.protocol)

/-- `RouteComparator._routes_equal`: multipath set comparison over the detail
lists when the subnet key is in both detail maps, field fallback otherwise. -/
def routesEqual (pre post : List Route) (r1 r2 : Route) : Bool :=
  let k := subnetKey r1
  if (pre.map subnetKey).contains k && (post.map subnetKey).contains k then
    let pl := detailList pre k
    let ql := detailList post k
    if pl.length ≠ ql.length then false
    else decide (((pl.map tripleOf).toFinset : Finset _) = (ql.map tripleOf).toFinset)
  else
    r1.destination == r2.destination && r1.prefixLength == r2.prefixLength &&
    r1.nextHop == r2.nextHop && r1.interface == r2.interface &&
    r1.protocol == r2.protocol

def optStr : Option String → String
  | some s => s
  | none => "None"

def optIntStr : Option Int → String
  | some n => toString n
  | none => "None"

/-- `f" on {intf}" if intf else ""`. -/
def intfSuffix : Option String → String
  | some s => if s ≠ "" then " on " ++ s else ""
  | none => ""

def fmtRemoved (t : Option String × Option String × Option String) : String :=
  "Removed path: via " ++ optStr t.1 ++ " [" ++ optStr t.2.2 ++ "]" ++ intfSuffix t.2.1

def fmtAdded (t : Option String × Option String × Option String) : String :=
  "Added path: via " ++ optStr t.1 ++ " [" ++ optStr t.2.2 ++ "]" ++ intfSuffix t.2.1

/-- `RouteComparator._get_route_differences`.  Python iterates the
set-differences of the triple sets in unspecified hash order; the
first-occurrence order is used here (no claim depends on this order). -/
def routeDifferences (pre post : List Route) (r1 r2 : Route) : List String :=
  let k := subnetKey r1
  if (pre.map subnetKey).contains k && (post.map subnetKey).contains k then
    let pl := detailList pre k
    let ql := detailList post k
    let cnt :=
      if pl.length ≠ ql.length then
        ["Number of paths: " ++ toString pl.length ++ " -> " ++ toString ql.length]
      else []
    let pt := pl.map tripleOf
    let qt := ql.map tripleOf
    let removed := (dedupFirst pt).filter (fun t => !qt.contains t)
    let added := (dedupFirst qt).filter (fun t => !pt.contains t)
    cnt ++ removed.map fmtRemoved ++ added.map fmtAdded
  else
    (if r1.nextHop ≠ r2.nextHop then
       ["Next hop: " ++ optStr r1.nextHop ++ " -> " ++ optStr r2.nextHop] else []) ++
    (if r1.interface ≠ r2.interface then
       ["Interface: " ++ optStr r1.interface ++ " -> " ++ optStr r2.interface] else []) ++
    (if r1.protocol ≠ r2.protocol then
       ["Protocol: " ++ optStr r1.protocol ++ " -> " ++ optStr r2.protocol] else []) ++
    (if r1.metric ≠ r2.metric then
       ["Metric: " ++ optIntStr r1.metric ++ " -> " ++ optIntStr r2.metric] else []) ++
    (if r1.adminDistance ≠ r2.adminDistance then
       ["Admin distance: " ++ optIntStr r1.adminDistance ++ " -> " ++
        optIntStr r2.adminDistance] else [])

/-- One entry of `changed_routes`. -/
structure ChangedEntry where
  subnet : String
  pre : Route
  post : Route
  changes : List String
deriving DecidableEq

structure CompareSummary where
  totalPreRoutes : Nat
  totalPostRoutes : Nat
  missingCount : Nat
  addedCount : Nat
  changedCount : Nat
  unchangedCount : Nat
deriving DecidableEq

structure CompareResult where
  summary : CompareSummary
  missingRoutes : List Route
  addedRoutes : List Route
  changedRoutes : List ChangedEntry
  unchangedRoutes : List Route
deriving DecidableEq

/-- The base-subnet loop of `RouteComparator.compare`, returning
`(missing, changed, unchanged)` in iteration order. -/
def compareGo (pre post : List Route) :
    List String → List Route × List ChangedEntry × List Route
  | [] => ([], [], [])
  | k :: ks =>
    let rest := compareGo pre post ks
    match listFind pre k with
    | none => rest
    | some preR =>
      if (post.map subnetKey).contains k then
        match listFind post k with
        | none => rest
        | some postR =>
          if routesEqual pre post preR postR then
            (rest.1, rest.2.1, preR :: rest.2.2)
          else
            (rest.1,
             ⟨k, preR, postR, routeDifferences pre post preR postR⟩ :: rest.2.1,
             rest.2.2)
      else (preR :: rest.1, rest.2.1, rest.2.2)

/-- `RouteComparator.compare` (built on the subnet-keyed indexes of
`__init__`).  Python iterates the pre/post subnet sets in unspecified hash
order; first-insertion order is used here, and only membership and counts
are relied on by the claims. -/
def compareRoutes (pre post : List Route) : CompareResult :=
  let preKeys := dedupFirst (pre.map subnetKey)
  let postKeys := dedupFirst (post.map subnetKey)
  let mcu := compareGo pre post preKeys
  let added := (postKeys.filter (fun k => !(pre.map subnetKey).contains k)).filterMap
    (listFind post)
  { summary :=
      { totalPreRoutes := preKeys.length
        totalPostRoutes := postKeys.length
        missingCount := mcu.1.length
        addedCount := added.length
        changedCount := mcu.2.1.length
        unchangedCount := mcu.2.2.length }
    missingRoutes := mcu.1
    addedRoutes := added
    changedRoutes := mcu.2.1
    unchangedRoutes := mcu.2.2 }

/-- The subnet keys of the three pre-side buckets, in bucket order. -/
def bucketKeys (cr : CompareResult) : List String :=
  cr.missingRoutes.map subnetKey ++ cr.changedRoutes.map (·.subnet) ++
    cr.unchangedRoutes.map subnetKey

instance : Inhabited Route := ⟨{ destination := "", prefixLength := 0 }⟩

/-- Line classification used to state the text-parser state behaviour: the
stripped line survives the banner filter and parses to a `*via` continuation
route (empty destination, truthy next hop, not ISIS-suppressed). -/
def viaContLine (l : String) : Bool :=
  !textSkipLine (pyStrip l) &&
  (match parseRouteLine (pyStrip l) with
   | some r => !isisRoute r && decide (r.destination = "") && truthyOS r.nextHop
   | none => false)

/-- The stripped line survives the banner filter and parses to a complete
single-line route (destination and nonzero prefix known, truthy next hop,
not ISIS-suppressed). -/
def completeLine (l : String) : Bool :=
  !textSkipLine (pyStrip l) &&
  (match parseRouteLine (pyStrip l) with
   | some r => !isisRoute r && decide (r.destination ≠ "") &&
               decide (r.prefixLength ≠ 0) && truthyOS r.nextHop
   | none => false)

/-- The stripped line survives the banner filter and parses to a Nexus
header route (destination and nonzero prefix, no next hop, not ISIS). -/
def headerLine (l : String) : Bool :=
  !textSkipLine (pyStrip l) &&
  (match parseRouteLine (pyStrip l) with
   | some r => !isisRoute r && decide (r.destination ≠ "") &&
               decide (r.prefixLength ≠ 0) && !truthyOS r.nextHop
   | none => false)

/-- The route a line parses to (only meaningful when one of the above
classifications holds). -/
def routeOfLine (l : String) : Route := (parseRouteLine (pyStrip l)).getD default

/-- Classification of one pre-side key as a missing route. -/
def missSel (pre post : List Route) (k : String) : Option Route :=
  match listFind pre k with
  | none => none
  | some preR => if (post.map subnetKey).contains k then none else some preR

/-- Classification of one pre-side key as a changed entry. -/
def chgSel (pre post : List Route) (k : String) : Option ChangedEntry :=
  match listFind pre k with
  | none => none
  | some preR =>
    if (post.map subnetKey).contains k then
      match listFind post k with
      | none => none
      | some postR =>
        if routesEqual pre post preR postR then none
        else some ⟨k, preR, postR, routeDifferences pre post preR postR⟩
    else none

/-- Classification of one pre-side key as an unchanged route. -/
def unchSel (pre post : List Route) (k : String) : Option Route :=
  match listFind pre k with
  | none => none
  | some preR =>
    if (post.map subnetKey).contains k then
      match listFind post k with
      | none => none
      | some postR => if routesEqual pre post preR postR then some preR else none
    else none

/-- All Route values appearing anywhere in the comparison output. -/
def allBucketRoutes (cr : CompareResult) : List Route :=
  cr.missingRoutes ++ cr.addedRoutes ++ cr.unchangedRoutes ++
    cr.changedRoutes.map (·.pre) ++ cr.changedRoutes.map (·.post)


/-! ### Normalisation lemmas -/

theorem dropWhile_idem {α : Type} (p : α → Bool) (l : List α) :
    (l.dropWhile p).dropWhile p = l.dropWhile p := by
  induction l with
  | nil => rfl
  | cons c t ih =>
    by_cases h : p c
    · simpa [List.dropWhile_cons, h] using ih
    · simp [List.dropWhile_cons, h]

theorem pyRstripPunct_idem (s : String) :
    pyRstripPunct (pyRstripPunct s) = pyRstripPunct s := by
  simp [pyRstripPunct, dropWhile_idem]

theorem normProto_idem (o : Option String) : normProto (normProto o) = normProto o := by
  cases o with
  | none => rfl
  | some s =>
    by_cases h : s = ""
    · simp [normProto, h]
    · by_cases h2 : pyRstripPunct s = "" <;>
        simp [normProto, h, h2, pyRstripPunct_idem]

theorem normIface_idem (o : Option String) : normIface (normIface o) = normIface o := by
  cases o with
  | none => rfl
  | some s =>
    by_cases h : s ≠ "" ∧ strStarts (pyLower s) "vlan"
    · simp only [normIface, if_pos h]
      have : ("vlan" : String) ≠ "" ∧ strStarts (pyLower "vlan") "vlan" := by decide
      rw [if_pos this]
    · simp only [normIface, if_neg h]

/-! ### IPv4 round trip -/

set_option maxRecDepth 4096 in
theorem octL_spec : ∀ m, m < 256 →
    parseOct (octL m) = some m ∧ (octL m).all (fun c => c != '.') = true := by decide

theorem splitDots_append (a r : List Char) (h : a.all (fun c => c != '.') = true) :
    splitDots (a ++ '.' :: r) = a :: splitDots r := by
  induction a with
  | nil => rfl
  | cons c t ih =>
    simp only [List.all_cons, Bool.and_eq_true, bne_iff_ne] at h
    show splitDots (c :: (t ++ '.' :: r)) = (c :: t) :: splitDots r
    rw [splitDots, if_neg h.1, ih h.2]

theorem splitDots_nodot (a : List Char) (h : a.all (fun c => c != '.') = true) :
    splitDots a = [a] := by
  induction a with
  | nil => rfl
  | cons c t ih =>
    simp only [List.all_cons, Bool.and_eq_true, bne_iff_ne] at h
    show splitDots (c :: t) = [c :: t]
    rw [splitDots, if_neg h.1, ih h.2]

theorem parseIPv4_strOfIp (n : Nat) (h : n < 4294967296) :
    parseIPv4 (strOfIp n) = some n := by
  have h1 := octL_spec (n / 16777216 % 256) (Nat.mod_lt _ (by norm_num))
  have h2 := octL_spec (n / 65536 % 256) (Nat.mod_lt _ (by norm_num))
  have h3 := octL_spec (n / 256 % 256) (Nat.mod_lt _ (by norm_num))
  have h4 := octL_spec (n % 256) (Nat.mod_lt _ (by norm_num))
  show parseIPv4L (String.mk (ipStrL n)).toList = some n
  have htl : (String.mk (ipStrL n)).toList = ipStrL n := rfl
  rw [htl]
  unfold ipStrL parseIPv4L
  rw [splitDots_append _ _ h1.2, splitDots_append _ _ h2.2,
      splitDots_append _ _ h3.2, splitDots_nodot _ h4.2]
  simp only [h1.1, h2.1, h3.1, h4.1, Option.some.injEq]
  omega

theorem parseOct_le {l : List Char} {v : Nat} (h : parseOct l = some v) : v ≤ 255 := by
  unfold parseOct at h
  split at h
  · rename_i hc
    simp only [Bool.and_eq_true, decide_eq_true_eq] at hc
    cases h
    exact hc.2
  · exact absurd h (by simp)

theorem parseIPv4_lt {s : String} {a : Nat} (h : parseIPv4 s = some a) :
    a < 4294967296 := by
  unfold parseIPv4 parseIPv4L at h
  split at h
  · rename_i a1 b1 c1 d1
    split at h
    · rename_i x y z w hx hy hz hw
      have := parseOct_le hx
      have := parseOct_le hy
      have := parseOct_le hz
      have := parseOct_le hw
      cases h
      omega
    · exact absurd h (by simp)
  · exact absurd h (by simp)

theorem netBase_le (a k : Nat) : netBase a k ≤ a := Nat.div_mul_le_self a _

theorem netBase_idem (a k : Nat) : netBase (netBase a k) k = netBase a k := by
  unfold netBase
  rw [Nat.mul_div_cancel _ (pow_pos (by norm_num : (0 : ℕ) < 2) _)]

theorem ipNetAddr_strOfIp {d : String} {p : Int} {n : Nat}
    (h : ipNetAddr d p = some n) : ipNetAddr (strOfIp n) p = some n := by
  unfold ipNetAddr at h ⊢
  split at h
  · rename_i hp
    rw [if_pos hp]
    match ha : parseIPv4 d with
    | some a =>
      rw [ha] at h
      simp only [Option.map_some', Option.some.injEq] at h
      have hlt : n < 4294967296 := by
        have := netBase_le a p.toNat
        have := parseIPv4_lt ha
        omega
      rw [parseIPv4_strOfIp n hlt]
      simp only [Option.map_some', Option.some.injEq]
      rw [← h, netBase_idem]
    | none =>
      rw [ha] at h
      simp only [Option.map_none'] at h
      exact absurd h (by simp)
  · exact absurd h (by simp)

theorem canonDest_idem (d : String) (p : Int) :
    canonDest (canonDest d p) p = canonDest d p := by
  unfold canonDest
  match h : ipNetAddr d p with
  | some n => rw [ipNetAddr_strOfIp h]
  | none => rw [h]

/-! ### Claim theorems: Route model -/

/-- C8.  The construction-time normalisations are idempotent: running
`__post_init__` over an already-normalised Route changes nothing, i.e.
destination canonicalisation, interface vlan-collapsing and protocol
punctuation-stripping are all no-ops on their own outputs. -/
theorem c8_normalisation_idempotent (r : Route) : mkRoute (mkRoute r) = mkRoute r := by
  cases r
  simp [mkRoute, canonDest_idem, normProto_idem, normIface_idem]

/-- C3.  Route construction is total (the embedding `mkRoute` is a function):
when `destination/prefixLength` parses as an IPv4 network the stored
destination becomes the canonical network base address, otherwise the
original destination string is stored unchanged; the prefix is untouched. -/
theorem c3_construction_tolerant (d : String) (p : Int) (nh i pr : Option String)
    (m ad : Option Int) (rl : Option String) :
    (∀ n, ipNetAddr d p = some n →
      (mkRoute { destination := d, prefixLength := p, nextHop := nh, interface := i,
                 protocol := pr, metric := m, adminDistance := ad,
                 rawLine := rl }).destination = strOfIp n)
    ∧ (ipNetAddr d p = none →
      (mkRoute { destination := d, prefixLength := p, nextHop := nh, interface := i,
                 protocol := pr, metric := m, adminDistance := ad,
                 rawLine := rl }).destination = d)
    ∧ (mkRoute { destination := d, prefixLength := p, nextHop := nh, interface := i,
                 protocol := pr, metric := m, adminDistance := ad,
                 rawLine := rl }).prefixLength = p := by
  refine ⟨fun n hn => ?_, fun hn => ?_, rfl⟩ <;> simp [mkRoute, canonDest, hn]

/-- Witness for C3 at the specification's own example `10.1.1.5/24`:
parsing succeeds and the stored destination is `10.1.1.0`. -/
theorem c3_construction_tolerant_witness :
    ipNetAddr "10.1.1.5" 24 = some 167837952 ∧
    (mkRoute { destination := "10.1.1.5", prefixLength := 24 }).destination =
      strOfIp 167837952 ∧
    strOfIp 167837952 = "10.1.1.0" :=
  ⟨by decide,
   (c3_construction_tolerant "10.1.1.5" 24 none none none none none none).1
     167837952 (by decide),
   by decide⟩

/-! ### Claim theorems: free-form text parser scenarios -/

set_option maxRecDepth 10000 in
/-- C5.  Two-line Nexus form: header then two `*via` continuation lines
gives exactly two Routes, both carrying the header's destination and prefix;
a bare header emits nothing. -/
theorem c5_nexus_two_line :
    (parseTextLines ["10.7.248.0/30, ubest/mbest: 2/0",
        "    *via 10.7.247.1, eth1/1, [110/41], 3d10h, ospf-1",
        "    *via 10.7.247.5, eth1/2, [110/41], 3d10h, ospf-1"]).length = 2 ∧
    ((parseTextLines ["10.7.248.0/30, ubest/mbest: 2/0",
        "    *via 10.7.247.1, eth1/1, [110/41], 3d10h, ospf-1",
        "    *via 10.7.247.5, eth1/2, [110/41], 3d10h, ospf-1"]).all
      (fun r => r.destination == "10.7.248.0" && r.prefixLength == 30)) = true ∧
    parseTextLines ["10.7.248.0/30, ubest/mbest: 2/0"] = [] := by
  refine ⟨?_, ?_, ?_⟩ <;> decide

set_option maxRecDepth 10000 in
/-- Counterexample to C4 as stated: clearing the pending header state after
a continuation route completes it (the specification's reading,
`parseTextLinesReset`) would emit only one route for a header followed by
two `*via` lines, while the source parser (`parseTextLines`) emits two -
the state is NOT cleared after a continuation. -/
theorem c4_counterexample :
    (parseTextLines ["10.9.0.0/16, ubest/mbest: 2/0",
        "*via 10.9.1.1, eth1/3, [110/41], 3d10h, ospf-2",
        "*via 10.9.1.2, eth1/4, [110/41], 3d10h, ospf-2"]).length = 2 ∧
    (parseTextLinesReset ["10.9.0.0/16, ubest/mbest: 2/0",
        "*via 10.9.1.1, eth1/3, [110/41], 3d10h, ospf-2",
        "*via 10.9.1.2, eth1/4, [110/41], 3d10h, ospf-2"]).length = 1 := by
  refine ⟨?_, ?_⟩ <;> decide

/-- Processing a run of continuation lines under a pending header: every
line emits one completed route and the pending state persists. -/
theorem parseTextGo_viaRun (d : String) (p : Int) (hd : d ≠ "")
    (vs : List String) (hv : ∀ v ∈ vs, viaContLine v = true) :
    parseTextGo (some (d, p)) vs =
      vs.map (fun v => { routeOfLine v with destination := d, prefixLength := p }) := by
  induction vs with
  | nil => rfl
  | cons v vs' ih =>
    have hb := hv v (List.mem_cons_self v vs')
    unfold viaContLine at hb
    simp only [Bool.and_eq_true] at hb
    obtain ⟨hskip, hmatch⟩ := hb
    match hr : parseRouteLine (pyStrip v) with
    | none => rw [hr] at hmatch; exact absurd hmatch (by simp)
    | some r =>
      rw [hr] at hmatch
      simp only [Bool.and_eq_true, Bool.not_eq_true', decide_eq_true_eq] at hmatch
      obtain ⟨⟨hisis, hdest⟩, hnh⟩ := hmatch
      have hskip' : textSkipLine (pyStrip v) = false := by
        simpa using hskip
      rw [parseTextGo, hskip']
      simp only [Bool.false_eq_true, if_false, hr, hisis, hdest, hnh]
      rw [if_neg (by simp [hdest]), if_pos (by simp [hnh, hdest, truthySt, hd])]
      simp only [List.map_cons, routeOfLine, hr, Option.getD_some]
      exact congrArg _ (ih (fun v hv' => hv v (List.mem_cons_of_mem _ hv')))

/-- C4 (amended).  The pending `currentDestination`/`currentPrefix` state is
cleared after a complete single-line route is emitted (an orphan `*via`
line right after it is dropped), but it is NOT cleared when a continuation
route completes the pending header: the header applies to every following
continuation line, so a run of `*via` lines all inherit it. -/
theorem c4_state_reset_amended (hl c w : String) (vs : List String)
    (hh : headerLine hl = true)
    (hv : ∀ v ∈ vs, viaContLine v = true)
    (hc : completeLine c = true)
    (hw : viaContLine w = true) :
    parseTextLines (hl :: vs) =
      vs.map (fun v => { routeOfLine v with
        destination := (routeOfLine hl).destination
        prefixLength := (routeOfLine hl).prefixLength })
    ∧ parseTextLines [c, w] = [routeOfLine c] := by
  constructor
  · unfold headerLine at hh
    simp only [Bool.and_eq_true] at hh
    obtain ⟨hskip, hmatch⟩ := hh
    match hr : parseRouteLine (pyStrip hl) with
    | none => rw [hr] at hmatch; exact absurd hmatch (by simp)
    | some r =>
      rw [hr] at hmatch
      simp only [Bool.and_eq_true, Bool.not_eq_true', decide_eq_true_eq] at hmatch
      obtain ⟨⟨⟨hisis, hdest⟩, hpfx⟩, hnh⟩ := hmatch
      have hskip' : textSkipLine (pyStrip hl) = false := by simpa using hskip
      show parseTextGo none (hl :: vs) = _
      rw [parseTextGo, hskip']
      simp only [Bool.false_eq_true, if_false, hr, hisis]
      rw [if_pos ⟨hdest, hpfx, by simp [hnh]⟩]
      rw [parseTextGo_viaRun r.destination r.prefixLength hdest vs hv]
      simp only [routeOfLine, hr, Option.getD_some]
  · unfold completeLine at hc
    simp only [Bool.and_eq_true] at hc
    obtain ⟨hskipc, hmc⟩ := hc
    match hrc : parseRouteLine (pyStrip c) with
    | none => rw [hrc] at hmc; exact absurd hmc (by simp)
    | some rc =>
      rw [hrc] at hmc
      simp only [Bool.and_eq_true, Bool.not_eq_true', decide_eq_true_eq] at hmc
      obtain ⟨⟨⟨hisisc, hdestc⟩, hpfxc⟩, hnhc⟩ := hmc
      have hskipc' : textSkipLine (pyStrip c) = false := by simpa using hskipc
      unfold viaContLine at hw
      simp only [Bool.and_eq_true] at hw
      obtain ⟨hskipw, hmw⟩ := hw
      match hrw : parseRouteLine (pyStrip w) with
      | none => rw [hrw] at hmw; exact absurd hmw (by simp)
      | some rw' =>
        rw [hrw] at hmw
        simp only [Bool.and_eq_true, Bool.not_eq_true', decide_eq_true_eq] at hmw
        obtain ⟨⟨hisisw, hdestw⟩, hnhw⟩ := hmw
        have hskipw' : textSkipLine (pyStrip w) = false := by simpa using hskipw
        show parseTextGo none [c, w] = [routeOfLine c]
        rw [parseTextGo, hskipc']
        simp only [Bool.false_eq_true, if_false, hrc, hisisc]
        rw [if_neg (by simp [hnhc]), if_neg (by simp [hdestc]),
            if_pos ⟨hdestc, hpfxc⟩]
        rw [parseTextGo, hskipw']
        simp only [Bool.false_eq_true, if_false, hrw, hisisw]
        rw [if_neg (by simp [hdestw]), if_neg (by simp [truthySt]),
            if_neg (by simp [hdestw])]
        simp only [parseTextGo, routeOfLine, hrc, Option.getD_some]

set_option maxRecDepth 10000 in
/-- Witness for the amended C4 at concrete lines: a real header, one `*via`
continuation, one complete legacy line and one orphan `*via` line. -/
theorem c4_state_reset_amended_witness :
    headerLine "10.9.0.0/16, ubest/mbest: 2/0" = true ∧
    viaContLine "*via 10.9.1.1, eth1/3, [110/41], 3d10h, ospf-2" = true ∧
    completeLine "10.4.4.0/24 via 10.4.0.1, Eth2/2" = true ∧
    (parseTextLines ["10.9.0.0/16, ubest/mbest: 2/0",
        "*via 10.9.1.1, eth1/3, [110/41], 3d10h, ospf-2"] =
      ["*via 10.9.1.1, eth1/3, [110/41], 3d10h, ospf-2"].map
        (fun v => { routeOfLine v with
          destination := (routeOfLine "10.9.0.0/16, ubest/mbest: 2/0").destination
          prefixLength := (routeOfLine "10.9.0.0/16, ubest/mbest: 2/0").prefixLength }) ∧
     parseTextLines ["10.4.4.0/24 via 10.4.0.1, Eth2/2",
        "*via 10.9.1.1, eth1/3, [110/41], 3d10h, ospf-2"] =
      [routeOfLine "10.4.4.0/24 via 10.4.0.1, Eth2/2"]) :=
  ⟨by decide, by decide, by decide,
   c4_state_reset_amended "10.9.0.0/16, ubest/mbest: 2/0"
     "10.4.4.0/24 via 10.4.0.1, Eth2/2"
     "*via 10.9.1.1, eth1/3, [110/41], 3d10h, ospf-2"
     ["*via 10.9.1.1, eth1/3, [110/41], 3d10h, ospf-2"]
     (by decide) (by decide) (by decide) (by decide)⟩

/-! ### Claim theorems: prefix length bounds -/

theorem mkRoute_prefixLength (r : Route) : (mkRoute r).prefixLength = r.prefixLength := rfl

theorem parseCiscoLine_prefix_nonneg {l : String} {r : Route}
    (h : parseCiscoLine l = some r) : 0 ≤ r.prefixLength := by
  unfold parseCiscoLine at h
  dsimp only at h
  repeat' split at h
  all_goals
    try (simp only [Option.some.injEq] at h
         subst h
         simp only [mkRoute_prefixLength, viaRouteOf, legacyRouteOf]
         positivity)
  all_goals simp at h

theorem parseGenericLine_prefix_nonneg {l : String} {r : Route}
    (h : parseGenericLine l = some r) : 0 ≤ r.prefixLength := by
  unfold parseGenericLine at h
  dsimp only at h
  split at h
  · exact absurd h (by simp)
  · simp only [Option.some.injEq] at h
    subst h
    simp only [mkRoute_prefixLength]
    split <;> simp

theorem parseRouteLine_prefix_nonneg {l : String} {r : Route}
    (h : parseRouteLine l = some r) : 0 ≤ r.prefixLength := by
  unfold parseRouteLine at h
  split at h
  · rename_i r' hr'
    cases h
    exact parseCiscoLine_prefix_nonneg hr'
  · exact parseGenericLine_prefix_nonneg h

theorem parseTextGo_prefix_nonneg {st : Option (String × Int)} {lines : List String}
    {r : Route} (hst : ∀ d p, st = some (d, p) → 0 ≤ p)
    (h : r ∈ parseTextGo st lines) : 0 ≤ r.prefixLength := by
  induction lines generalizing st with
  | nil => simp [parseTextGo] at h
  | cons line rest ih =>
    rw [parseTextGo] at h
    by_cases hskip : textSkipLine (pyStrip line) = true
    · rw [if_pos hskip] at h
      exact ih hst h
    · rw [if_neg hskip] at h
      match hr : parseRouteLine (pyStrip line) with
      | none =>
        rw [hr] at h
        dsimp only at h
        exact ih hst h
      | some r' =>
        rw [hr] at h
        dsimp only at h
        by_cases hisis : isisRoute r' = true
        · rw [if_pos hisis] at h
          exact ih hst h
        · rw [if_neg hisis] at h
          by_cases h1 : r'.destination ≠ "" ∧ r'.prefixLength ≠ 0 ∧ ¬ truthyOS r'.nextHop = true
          · rw [if_pos h1] at h
            refine ih (fun d p hdp => ?_) h
            cases hdp
            exact parseRouteLine_prefix_nonneg hr
          · rw [if_neg h1] at h
            by_cases h2 : truthyOS r'.nextHop = true ∧ r'.destination = "" ∧ truthySt st = true
            · rw [if_pos h2] at h
              cases st with
              | some dp =>
                obtain ⟨d, p⟩ := dp
                dsimp only at h
                rcases List.mem_cons.mp h with h3 | h3
                · subst h3
                  exact hst d p rfl
                · exact ih hst h3
              | none =>
                exact absurd h2.2.2 (by simp [truthySt])
            · rw [if_neg h2] at h
              by_cases h3 : r'.destination ≠ "" ∧ r'.prefixLength ≠ 0
              · rw [if_pos h3] at h
                rcases List.mem_cons.mp h with h4 | h4
                · subst h4
                  exact parseRouteLine_prefix_nonneg hr
                · exact ih (by simp) h4
              · rw [if_neg h3] at h
                exact ih hst h

/-- Counterexample to C6 as stated: a tabular/JSON record with mask field
"99" produces a Route whose prefixLength is 99, outside 0-32.  (The dict
parser can even yield negative prefixes from a signed prefix suffix.) -/
theorem c6_prefix_counterexample :
    (parseRecords [[("destination", PyVal.str "10.0.0.0"),
        ("mask", PyVal.str "99")]]).map (fun r => r.prefixLength) = [99] ∧
    ¬ ((99 : Int) ≤ 32) :=
  ⟨by decide, by norm_num⟩

/-- C6 (amended).  No parsing strategy enforces the upper bound 32: records
or lines carrying an out-of-range prefix pass it through unvalidated (and
the record path can even go negative).  What does hold is that every Route
produced by the free-form text parser has a nonnegative prefixLength. -/
theorem c6_prefix_amended (lines : List String) (r : Route)
    (h : r ∈ parseTextLines lines) : 0 ≤ r.prefixLength :=
  parseTextGo_prefix_nonneg (by simp) h

/-- Witness for the amended C6: the single route parsed from a legacy line
is in the output and has nonnegative prefix. -/
theorem c6_prefix_amended_witness :
    (parseTextLines ["10.1.1.0/24 via 192.168.1.1, Ethernet1/1"]).headD default ∈
      parseTextLines ["10.1.1.0/24 via 192.168.1.1, Ethernet1/1"] ∧
    0 ≤ ((parseTextLines ["10.1.1.0/24 via 192.168.1.1, Ethernet1/1"]).headD
      default).prefixLength :=
  ⟨by decide,
   c6_prefix_amended ["10.1.1.0/24 via 192.168.1.1, Ethernet1/1"] _ (by decide)⟩

/-! ### Distinct-key lemmas -/

theorem mem_dedupFirst {α : Type} [DecidableEq α] {a : α} :
    ∀ {l : List α}, a ∈ dedupFirst l ↔ a ∈ l := by
  intro l
  induction l with
  | nil => simp [dedupFirst]
  | cons x xs ih =>
    by_cases h : a = x <;> simp [dedupFirst, List.mem_filter, h, ih]

theorem nodup_dedupFirst {α : Type} [DecidableEq α] : ∀ l : List α, (dedupFirst l).Nodup
  | [] => List.nodup_nil
  | x :: xs => by
    refine List.Nodup.cons ?_ ((nodup_dedupFirst xs).filter _)
    simp [List.mem_filter]

theorem dedupFirst_sublist {α : Type} [DecidableEq α] :
    ∀ l : List α, List.Sublist (dedupFirst l) l
  | [] => List.Sublist.refl []
  | x :: xs =>
    List.Sublist.cons₂ x ((List.filter_sublist (dedupFirst xs)).trans (dedupFirst_sublist xs))

theorem length_dedupFirst_lt {α : Type} [DecidableEq α] {l : List α}
    (h : ¬ l.Nodup) : (dedupFirst l).length < l.length := by
  rcases Nat.lt_or_ge (dedupFirst l).length l.length with hlt | hge
  · exact hlt
  · have hle := (dedupFirst_sublist l).length_le
    have : (dedupFirst l).length = l.length := Nat.le_antisymm hle hge
    have heq := (dedupFirst_sublist l).eq_of_length this
    exact absurd (heq ▸ nodup_dedupFirst l) h

theorem toFinset_dedupFirst {α : Type} [DecidableEq α] (l : List α) :
    (dedupFirst l).toFinset = l.toFinset := by
  ext a
  simp [List.mem_toFinset, mem_dedupFirst]

theorem length_dedupFirst_eq_card {α : Type} [DecidableEq α] (l : List α) :
    (dedupFirst l).length = l.toFinset.card := by
  rw [← toFinset_dedupFirst]
  exact (List.toFinset_card_of_nodup (nodup_dedupFirst l)).symm

/-- C10.  The summary totals count distinct subnet keys, not Route
instances; a side holding duplicate subnet keys (equal-cost multipath) has a
summary total strictly below its parsed-route count. -/
theorem c10_summary_distinct_counts (pre post : List Route) :
    (compareRoutes pre post).summary.totalPreRoutes = (pre.map subnetKey).toFinset.card ∧
    (compareRoutes pre post).summary.totalPostRoutes = (post.map subnetKey).toFinset.card ∧
    (¬ (pre.map subnetKey).Nodup →
      (compareRoutes pre post).summary.totalPreRoutes < pre.length) ∧
    (¬ (post.map subnetKey).Nodup →
      (compareRoutes pre post).summary.totalPostRoutes < post.length) := by
  refine ⟨length_dedupFirst_eq_card _, length_dedupFirst_eq_card _,
    fun h => ?_, fun h => ?_⟩ <;>
  · have := length_dedupFirst_lt h
    simpa [compareRoutes, List.length_map] using this

/-- Witness for C10 with an equal-cost-multipath pre side: two routes, one
distinct subnet, total 1 < 2. -/
theorem c10_summary_distinct_counts_witness :
    ¬ (([{ destination := "10.0.0.0", prefixLength := (8 : Int),
           nextHop := some "1.1.1.1" },
         { destination := "10.0.0.0", prefixLength := (8 : Int),
           nextHop := some "1.1.1.2" }] : List Route).map subnetKey).Nodup ∧
    (compareRoutes
        [{ destination := "10.0.0.0", prefixLength := (8 : Int),
           nextHop := some "1.1.1.1" },
         { destination := "10.0.0.0", prefixLength := (8 : Int),
           nextHop := some "1.1.1.2" }] []).summary.totalPreRoutes < 2 :=
  ⟨by decide,
   (c10_summary_distinct_counts
      [{ destination := "10.0.0.0", prefixLength := (8 : Int), nextHop := some "1.1.1.1" },
       { destination := "10.0.0.0", prefixLength := (8 : Int), nextHop := some "1.1.1.2" }]
      []).2.2.1 (by decide)⟩

/-! ### ISIS suppression lemmas -/

theorem parseTextGo_isis {st : Option (String × Int)} {lines : List String} {r : Route}
    (h : r ∈ parseTextGo st lines) : isisRoute r = false := by
  induction lines generalizing st with
  | nil => simp [parseTextGo] at h
  | cons line rest ih =>
    rw [parseTextGo] at h
    by_cases hskip : textSkipLine (pyStrip line) = true
    · rw [if_pos hskip] at h
      exact ih h
    · rw [if_neg hskip] at h
      match hr : parseRouteLine (pyStrip line) with
      | none =>
        rw [hr] at h
        dsimp only at h
        exact ih h
      | some r' =>
        rw [hr] at h
        dsimp only at h
        by_cases hisis : isisRoute r' = true
        · rw [if_pos hisis] at h
          exact ih h
        · rw [if_neg hisis] at h
          by_cases h1 : r'.destination ≠ "" ∧ r'.prefixLength ≠ 0 ∧ ¬ truthyOS r'.nextHop = true
          · rw [if_pos h1] at h
            exact ih h
          · rw [if_neg h1] at h
            by_cases h2 : truthyOS r'.nextHop = true ∧ r'.destination = "" ∧ truthySt st = true
            · rw [if_pos h2] at h
              cases st with
              | some dp =>
                obtain ⟨d, p⟩ := dp
                dsimp only at h
                rcases List.mem_cons.mp h with h3 | h3
                · subst h3
                  simpa [isisRoute] using hisis
                · exact ih h3
              | none =>
                exact absurd h2.2.2 (by simp [truthySt])
            · rw [if_neg h2] at h
              by_cases h3 : r'.destination ≠ "" ∧ r'.prefixLength ≠ 0
              · rw [if_pos h3] at h
                rcases List.mem_cons.mp h with h4 | h4
                · subst h4
                  simpa using hisis
                · exact ih h4
              · rw [if_neg h3] at h
                exact ih h

theorem parseRecords_isis {rows : List PyDict} {r : Route}
    (h : r ∈ parseRecords rows) : isisRoute r = false := by
  induction rows with
  | nil => simp [parseRecords] at h
  | cons d rest ih =>
    rw [parseRecords, List.foldr_cons] at h
    match hd : parseRouteDict d with
    | none =>
      rw [hd] at h
      exact ih h
    | some r' =>
      rw [hd] at h
      dsimp only at h
      by_cases hisis : isisRoute r' = true
      · rw [if_pos hisis] at h
        exact ih h
      · rw [if_neg hisis] at h
        rcases List.mem_cons.mp h with h1 | h1
        · subst h1
          simpa using hisis
        · exact ih h1

/-! ### Characterisation of the comparison loop -/

theorem compareGo_eq (pre post : List Route) : ∀ ks,
    compareGo pre post ks =
      (ks.filterMap (missSel pre post), ks.filterMap (chgSel pre post),
       ks.filterMap (unchSel pre post)) := by
  intro ks
  induction ks with
  | nil => rfl
  | cons k ks ih =>
    rw [compareGo]
    rw [ih]
    simp only [List.filterMap_cons]
    match hf : listFind pre k with
    | none => simp [missSel, chgSel, unchSel, hf]
    | some preR =>
      by_cases hc : ∃ a ∈ post, subnetKey a = k
      · match hp : listFind post k with
        | none => simp [missSel, chgSel, unchSel, hf, hc, hp]
        | some postR =>
          by_cases he : routesEqual pre post preR postR = true <;>
            simp [missSel, chgSel, unchSel, hf, hc, hp, he]
      · simp [missSel, chgSel, unchSel, hf, hc]

theorem listFind_mem {l : List Route} {k : String} {r : Route}
    (h : listFind l k = some r) : r ∈ l :=
  List.mem_of_find?_eq_some h

theorem listFind_key {l : List Route} {k : String} {r : Route}
    (h : listFind l k = some r) : subnetKey r = k := by
  have := List.find?_some h
  simpa using this

theorem missSel_mem {pre post : List Route} {k : String} {r : Route}
    (h : missSel pre post k = some r) : r ∈ pre := by
  unfold missSel at h
  split at h
  · exact absurd h (by simp)
  · rename_i preR hf
    split at h
    · exact absurd h (by simp)
    · cases h
      exact listFind_mem hf

theorem unchSel_mem {pre post : List Route} {k : String} {r : Route}
    (h : unchSel pre post k = some r) : r ∈ pre := by
  unfold unchSel at h
  split at h
  · exact absurd h (by simp)
  · rename_i preR hf
    split at h
    · split at h
      · exact absurd h (by simp)
      · split at h
        · cases h
          exact listFind_mem hf
        · exact absurd h (by simp)
    · exact absurd h (by simp)

theorem chgSel_mem {pre post : List Route} {k : String} {e : ChangedEntry}
    (h : chgSel pre post k = some e) : e.pre ∈ pre ∧ e.post ∈ post := by
  unfold chgSel at h
  split at h
  · exact absurd h (by simp)
  · rename_i preR hf
    split at h
    · split at h
      · exact absurd h (by simp)
      · rename_i postR hp
        split at h
        · exact absurd h (by simp)
        · cases h
          exact ⟨listFind_mem hf, listFind_mem hp⟩
    · exact absurd h (by simp)

theorem bucket_routes_mem {pre post : List Route} {r : Route}
    (h : r ∈ allBucketRoutes (compareRoutes pre post)) : r ∈ pre ∨ r ∈ post := by
  unfold allBucketRoutes compareRoutes at h
  dsimp only at h
  rw [compareGo_eq] at h
  dsimp only at h
  simp only [List.mem_append] at h
  rcases h with ((((h | h) | h) | h) | h)
  · rcases List.mem_filterMap.mp h with ⟨k, _, hsel⟩
    exact Or.inl (missSel_mem hsel)
  · rcases List.mem_filterMap.mp h with ⟨k, _, hsel⟩
    exact Or.inr (listFind_mem hsel)
  · rcases List.mem_filterMap.mp h with ⟨k, _, hsel⟩
    exact Or.inl (unchSel_mem hsel)
  · rcases List.mem_map.mp h with ⟨e, he, hr⟩
    rcases List.mem_filterMap.mp he with ⟨k, _, hsel⟩
    exact Or.inl (hr ▸ (chgSel_mem hsel).1)
  · rcases List.mem_map.mp h with ⟨e, he, hr⟩
    rcases List.mem_filterMap.mp he with ⟨k, _, hsel⟩
    exact Or.inr (hr ▸ (chgSel_mem hsel).2)

/-- C7.  ISIS infrastructure suppression: no Route in the output of the
free-form text parser or of the record (JSON/tabular) parser carries a
protocol containing "isis-isis_infra"; consequently, whenever the
comparator's two inputs are such parser outputs, no route in any output
bucket does either. -/
theorem c7_isis_suppression (lines : List String) (rows : List PyDict)
    (pre post : List Route) :
    (∀ r ∈ parseTextLines lines, isisRoute r = false) ∧
    (∀ r ∈ parseRecords rows, isisRoute r = false) ∧
    ((∀ r ∈ pre, isisRoute r = false) → (∀ r ∈ post, isisRoute r = false) →
      ∀ r ∈ allBucketRoutes (compareRoutes pre post), isisRoute r = false) := by
  refine ⟨fun r hr => parseTextGo_isis hr, fun r hr => parseRecords_isis hr,
    fun hp hq r hr => ?_⟩
  rcases bucket_routes_mem hr with h | h
  · exact hp r h
  · exact hq r h

set_option maxRecDepth 10000 in
/-- Witness for C7: an ISIS `*via` line under a header yields nothing (the
non-ISIS line of the same file does appear), an ISIS record is dropped, and
a concrete comparison run has ISIS-free buckets. -/
theorem c7_isis_suppression_witness :
    ((parseTextLines ["10.8.0.0/16, ubest/mbest: 1/0",
        "*via 10.8.1.1, eth1/5, [115/64], 04w00d, isis-isis_infra, isis-l1-ext",
        "*via 10.8.1.2, eth1/6, [110/41], 3d10h, ospf-3"]).headD default ∈
      parseTextLines ["10.8.0.0/16, ubest/mbest: 1/0",
        "*via 10.8.1.1, eth1/5, [115/64], 04w00d, isis-isis_infra, isis-l1-ext",
        "*via 10.8.1.2, eth1/6, [110/41], 3d10h, ospf-3"]) ∧
    isisRoute ((parseTextLines ["10.8.0.0/16, ubest/mbest: 1/0",
        "*via 10.8.1.1, eth1/5, [115/64], 04w00d, isis-isis_infra, isis-l1-ext",
        "*via 10.8.1.2, eth1/6, [110/41], 3d10h, ospf-3"]).headD default) = false ∧
    (∀ r ∈ ([{ destination := "10.5.0.0", prefixLength := (16 : Int),
               protocol := some "ospf" }] : List Route), isisRoute r = false) ∧
    (∀ r ∈ allBucketRoutes (compareRoutes
        [{ destination := "10.5.0.0", prefixLength := (16 : Int),
           protocol := some "ospf" }] []), isisRoute r = false) := by
  have hmain := c7_isis_suppression
    ["10.8.0.0/16, ubest/mbest: 1/0",
     "*via 10.8.1.1, eth1/5, [115/64], 04w00d, isis-isis_infra, isis-l1-ext",
     "*via 10.8.1.2, eth1/6, [110/41], 3d10h, ospf-3"]
    []
    [{ destination := "10.5.0.0", prefixLength := (16 : Int), protocol := some "ospf" }]
    []
  exact ⟨by decide, hmain.1 _ (by decide), by decide,
    hmain.2.2 (by decide) (by decide)⟩

/-! ### C2: multipath-aware equality -/

theorem perm_map_toFinset {α β : Type} [DecidableEq β] (f : α → β) {l1 l2 : List α}
    (h : l1.Perm l2) : (l1.map f).toFinset = (l2.map f).toFinset := by
  ext a
  simp [List.mem_toFinset, (h.map f).mem_iff]

theorem mem_detailList_map {l : List Route} {k : String}
    (h : k ∈ l.map subnetKey) : ∃ rr, rr ∈ detailList l k := by
  rcases List.mem_map.mp h with ⟨rr, hrr, hkey⟩
  exact ⟨rr, by simp [detailList, List.mem_filter, hrr, hkey]⟩

theorem detailList_mem_map {l : List Route} {k : String} {rr : Route}
    (h : rr ∈ detailList l k) : k ∈ l.map subnetKey := by
  rcases List.mem_filter.mp h with ⟨hmem, hkey⟩
  simp only [beq_iff_eq] at hkey
  exact List.mem_map.mpr ⟨rr, hmem, hkey⟩

/-- C2.  For a subnet key present on both sides, `_routes_equal` holds iff
the two full detail lists have equal length and identical sets of
`(nextHop, interface, protocol)` triples; in particular the verdict is
invariant under reordering (and hence under duplicate placement) of either
detail list. -/
theorem c2_multipath_equality (pre post : List Route) (r1 r2 : Route)
    (h1 : subnetKey r1 ∈ pre.map subnetKey) (h2 : subnetKey r1 ∈ post.map subnetKey) :
    (routesEqual pre post r1 r2 = true ↔
      ((detailList pre (subnetKey r1)).length = (detailList post (subnetKey r1)).length ∧
       ((detailList pre (subnetKey r1)).map tripleOf).toFinset =
         ((detailList post (subnetKey r1)).map tripleOf).toFinset)) ∧
    (∀ pre2 post2 : List Route,
      (detailList pre2 (subnetKey r1)).Perm (detailList pre (subnetKey r1)) →
      (detailList post2 (subnetKey r1)).Perm (detailList post (subnetKey r1)) →
      routesEqual pre2 post2 r1 r2 = routesEqual pre post r1 r2) := by
  have hc : ((pre.map subnetKey).contains (subnetKey r1) &&
      (post.map subnetKey).contains (subnetKey r1)) = true := by
    simp only [Bool.and_eq_true]
    exact ⟨by simpa using h1, by simpa using h2⟩
  constructor
  · unfold routesEqual
    rw [if_pos hc]
    by_cases hlen : (detailList pre (subnetKey r1)).length =
        (detailList post (subnetKey r1)).length
    · rw [if_neg (not_not_intro hlen)]
      simp [hlen]
    · rw [if_pos hlen]
      simp [hlen]
  · intro pre2 post2 hp hq
    have h1' : subnetKey r1 ∈ pre2.map subnetKey := by
      rcases mem_detailList_map h1 with ⟨rr, hrr⟩
      exact detailList_mem_map (hp.mem_iff.mpr hrr)
    have h2' : subnetKey r1 ∈ post2.map subnetKey := by
      rcases mem_detailList_map h2 with ⟨rr, hrr⟩
      exact detailList_mem_map (hq.mem_iff.mpr hrr)
    have hc2 : ((pre2.map subnetKey).contains (subnetKey r1) &&
        (post2.map subnetKey).contains (subnetKey r1)) = true := by
      simp only [Bool.and_eq_true]
      exact ⟨by simpa using h1', by simpa using h2'⟩
    unfold routesEqual
    rw [if_pos hc, if_pos hc2]
    dsimp only
    rw [hp.length_eq, hq.length_eq,
        perm_map_toFinset tripleOf hp, perm_map_toFinset tripleOf hq]

/-- Witness for C2: an equal-cost multipath pair where the two sides list
the same triples in opposite order, plus a reordered pre side. -/
theorem c2_multipath_equality_witness :
    (subnetKey { destination := "10.6.0.0", prefixLength := (16 : Int),
                 nextHop := some "1.1.1.1", protocol := some "ospf" } ∈
      ([{ destination := "10.6.0.0", prefixLength := (16 : Int),
          nextHop := some "1.1.1.1", protocol := some "ospf" },
        { destination := "10.6.0.0", prefixLength := (16 : Int),
          nextHop := some "1.1.1.2", protocol := some "ospf" }] : List Route).map
        subnetKey) ∧
    (routesEqual
        [{ destination := "10.6.0.0", prefixLength := (16 : Int),
           nextHop := some "1.1.1.1", protocol := some "ospf" },
         { destination := "10.6.0.0", prefixLength := (16 : Int),
           nextHop := some "1.1.1.2", protocol := some "ospf" }]
        [{ destination := "10.6.0.0", prefixLength := (16 : Int),
           nextHop := some "1.1.1.2", protocol := some "ospf" },
         { destination := "10.6.0.0", prefixLength := (16 : Int),
           nextHop := some "1.1.1.1", protocol := some "ospf" }]
        { destination := "10.6.0.0", prefixLength := (16 : Int),
          nextHop := some "1.1.1.1", protocol := some "ospf" }
        { destination := "10.6.0.0", prefixLength := (16 : Int),
          nextHop := some "1.1.1.2", protocol := some "ospf" } = true ↔
      ((detailList
          [{ destination := "10.6.0.0", prefixLength := (16 : Int),
             nextHop := some "1.1.1.1", protocol := some "ospf" },
           { destination := "10.6.0.0", prefixLength := (16 : Int),
             nextHop := some "1.1.1.2", protocol := some "ospf" }]
          (subnetKey { destination := "10.6.0.0", prefixLength := (16 : Int),
                       nextHop := some "1.1.1.1", protocol := some "ospf" })).length =
        (detailList
          [{ destination := "10.6.0.0", prefixLength := (16 : Int),
             nextHop := some "1.1.1.2", protocol := some "ospf" },
           { destination := "10.6.0.0", prefixLength := (16 : Int),
             nextHop := some "1.1.1.1", protocol := some "ospf" }]
          (subnetKey { destination := "10.6.0.0", prefixLength := (16 : Int),
                       nextHop := some "1.1.1.1", protocol := some "ospf" })).length ∧
       ((detailList
          [{ destination := "10.6.0.0", prefixLength := (16 : Int),
             nextHop := some "1.1.1.1", protocol := some "ospf" },
           { destination := "10.6.0.0", prefixLength := (16 : Int),
             nextHop := some "1.1.1.2", protocol := some "ospf" }]
          (subnetKey { destination := "10.6.0.0", prefixLength := (16 : Int),
                       nextHop := some "1.1.1.1", protocol := some "ospf" })).map
          tripleOf).toFinset =
       ((detailList
          [{ destination := "10.6.0.0", prefixLength := (16 : Int),
             nextHop := some "1.1.1.2", protocol := some "ospf" },
           { destination := "10.6.0.0", prefixLength := (16 : Int),
             nextHop := some "1.1.1.1", protocol := some "ospf" }]
          (subnetKey { destination := "10.6.0.0", prefixLength := (16 : Int),
                       nextHop := some "1.1.1.1", protocol := some "ospf" })).map
          tripleOf).toFinset)) :=
  ⟨by decide,
   (c2_multipath_equality
     [{ destination := "10.6.0.0", prefixLength := (16 : Int),
        nextHop := some "1.1.1.1", protocol := some "ospf" },
      { destination := "10.6.0.0", prefixLength := (16 : Int),
        nextHop := some "1.1.1.2", protocol := some "ospf" }]
     [{ destination := "10.6.0.0", prefixLength := (16 : Int),
        nextHop := some "1.1.1.2", protocol := some "ospf" },
      { destination := "10.6.0.0", prefixLength := (16 : Int),
        nextHop := some "1.1.1.1", protocol := some "ospf" }]
     { destination := "10.6.0.0", prefixLength := (16 : Int),
       nextHop := some "1.1.1.1", protocol := some "ospf" }
     { destination := "10.6.0.0", prefixLength := (16 : Int),
       nextHop := some "1.1.1.2", protocol := some "ospf" }
     (by decide) (by decide)).1⟩

/-! ### C9: metric / admin-distance resolution -/

theorem mkRoute_metric (r : Route) : (mkRoute r).metric = r.metric := rfl

theorem mkRoute_adminDistance (r : Route) : (mkRoute r).adminDistance = r.adminDistance := rfl

/-- Counterexample to C9 as stated: for the record with `cost` 0 (and no
truthy `metric`), the resolved value is the integer 0, whose string form
"0" consists entirely of digits, yet the built Route has no metric - the
source keeps a value only when it is also Python-truthy, so numeric 0 is
dropped. -/
theorem c9_metric_counterexample :
    allDigits (pyStr (PyVal.int 0)).toList = true ∧
    (parseRouteDict [("destination", PyVal.str "10.0.0.0/24"),
        ("cost", PyVal.int 0)]).map (fun r => r.metric) = some none :=
  ⟨by decide, by decide⟩

/-- C9 (amended).  `metric` is resolved as the Python `or` of the `metric`
and `cost` values (first truthy wins), `adminDistance` likewise from
`admin_distance` and `ad`; the resolved value is kept, converted to an
integer, exactly when it is truthy AND its string form consists entirely of
digits (so numeric 0, empty strings and missing fields give an absent
metric, never an error); and the metric fields never decide whether the
record itself is parsed - that depends only on finding a destination. -/
theorem c9_metric_resolution_amended (data : PyDict) (r : Route)
    (h : parseRouteDict data = some r) :
    r.metric = keepDigits (pyOr (dGet data "metric") (dGet data "cost")) ∧
    r.adminDistance = keepDigits (pyOr (dGet data "admin_distance") (dGet data "ad")) ∧
    ((parseRouteDict data).isSome ↔ (firstField data destFields).isSome) := by
  have h3 : (parseRouteDict data).isSome ↔ (firstField data destFields).isSome := by
    unfold parseRouteDict
    match hd : firstField data destFields with
    | none => simp [hd]
    | some dest0 => simp [hd]
  refine ⟨?_, ?_, h3⟩ <;>
  · unfold parseRouteDict at h
    match hd : firstField data destFields with
    | none =>
      rw [hd] at h
      exact absurd h (by simp)
    | some dest0 =>
      rw [hd] at h
      dsimp only at h
      simp only [Option.some.injEq] at h
      subst h
      rfl

/-- Witness for the amended C9 at a concrete record carrying a digit metric
and a digit admin distance. -/
theorem c9_metric_resolution_amended_witness :
    parseRouteDict [("destination", PyVal.str "10.0.0.0/24"),
        ("metric", PyVal.str "20"), ("ad", PyVal.str "110")] =
      some ((parseRouteDict [("destination", PyVal.str "10.0.0.0/24"),
        ("metric", PyVal.str "20"), ("ad", PyVal.str "110")]).getD default) ∧
    ((parseRouteDict [("destination", PyVal.str "10.0.0.0/24"),
        ("metric", PyVal.str "20"), ("ad", PyVal.str "110")]).getD default).metric =
      keepDigits (pyOr
        (dGet [("destination", PyVal.str "10.0.0.0/24"),
          ("metric", PyVal.str "20"), ("ad", PyVal.str "110")] "metric")
        (dGet [("destination", PyVal.str "10.0.0.0/24"),
          ("metric", PyVal.str "20"), ("ad", PyVal.str "110")] "cost")) ∧
    ((parseRouteDict [("destination", PyVal.str "10.0.0.0/24"),
        ("metric", PyVal.str "20"), ("ad", PyVal.str "110")]).getD default).adminDistance =
      keepDigits (pyOr
        (dGet [("destination", PyVal.str "10.0.0.0/24"),
          ("metric", PyVal.str "20"), ("ad", PyVal.str "110")] "admin_distance")
        (dGet [("destination", PyVal.str "10.0.0.0/24"),
          ("metric", PyVal.str "20"), ("ad", PyVal.str "110")] "ad")) :=
  ⟨by decide,
   (c9_metric_resolution_amended
     [("destination", PyVal.str "10.0.0.0/24"),
      ("metric", PyVal.str "20"), ("ad", PyVal.str "110")] _ (by decide)).1,
   (c9_metric_resolution_amended
     [("destination", PyVal.str "10.0.0.0/24"),
      ("metric", PyVal.str "20"), ("ad", PyVal.str "110")] _ (by decide)).2.1⟩

/-! ### C1: partition of subnet keys -/

theorem count_filter_ite {α : Type} [DecidableEq α] (p : α → Bool) (a : α) (l : List α) :
    List.count a (l.filter p) = if p a then List.count a l else 0 := by
  induction l with
  | nil => simp
  | cons x xs ih =>
    by_cases hax : a = x
    · subst hax
      by_cases hpx : p a = true <;> simp [List.filter_cons, hpx, List.count_cons, ih]
    · by_cases hpx : p x = true <;> simp [List.filter_cons, hpx, List.count_cons, ih, hax]

theorem map_filterMap_keys {β : Type} (f : String → Option β) (g : β → String)
    (hf : ∀ k b, f k = some b → g b = k) : ∀ l : List String,
    (l.filterMap f).map g = l.filter (fun k => (f k).isSome)
  | [] => rfl
  | k :: ks => by
    match hk : f k with
    | none =>
      simp [List.filterMap_cons, hk, List.filter_cons, map_filterMap_keys f g hf ks]
    | some b =>
      simp [List.filterMap_cons, hk, List.filter_cons, hf k b hk,
        map_filterMap_keys f g hf ks]

theorem missSel_key {pre post : List Route} {k : String} {r : Route}
    (h : missSel pre post k = some r) : subnetKey r = k := by
  unfold missSel at h
  split at h
  · exact absurd h (by simp)
  · rename_i preR hf
    split at h
    · exact absurd h (by simp)
    · cases h
      exact listFind_key hf

theorem unchSel_key {pre post : List Route} {k : String} {r : Route}
    (h : unchSel pre post k = some r) : subnetKey r = k := by
  unfold unchSel at h
  split at h
  · exact absurd h (by simp)
  · rename_i preR hf
    split at h
    · split at h
      · exact absurd h (by simp)
      · split at h
        · cases h
          exact listFind_key hf
        · exact absurd h (by simp)
    · exact absurd h (by simp)

theorem chgSel_key {pre post : List Route} {k : String} {e : ChangedEntry}
    (h : chgSel pre post k = some e) : e.subnet = k := by
  unfold chgSel at h
  split at h
  · exact absurd h (by simp)
  · split at h
    · split at h
      · exact absurd h (by simp)
      · split at h
        · exact absurd h (by simp)
        · cases h
          rfl
    · exact absurd h (by simp)

theorem listFind_isSome_of_mem {l : List Route} {k : String}
    (h : k ∈ l.map subnetKey) : (listFind l k).isSome := by
  rcases List.mem_map.mp h with ⟨r, hr, hk⟩
  exact List.find?_isSome.mpr ⟨r, hr, by simp [hk]⟩

theorem sel_exactly_one (post : List Route) {pre : List Route} {k : String}
    (hk : k ∈ pre.map subnetKey) :
    (((missSel pre post k).isSome && !(chgSel pre post k).isSome &&
        !(unchSel pre post k).isSome) ||
     (!(missSel pre post k).isSome && (chgSel pre post k).isSome &&
        !(unchSel pre post k).isSome) ||
     (!(missSel pre post k).isSome && !(chgSel pre post k).isSome &&
        (unchSel pre post k).isSome)) = true := by
  have hf := listFind_isSome_of_mem hk
  match hfind : listFind pre k with
  | none => rw [hfind] at hf; simp at hf
  | some preR =>
    by_cases hc : ∃ a ∈ post, subnetKey a = k
    · have hcm : k ∈ post.map subnetKey := by
        rcases hc with ⟨a, ha, hka⟩
        exact List.mem_map.mpr ⟨a, ha, hka⟩
      have hp := listFind_isSome_of_mem hcm
      match hpost : listFind post k with
      | none => rw [hpost] at hp; simp at hp
      | some postR =>
        by_cases he : routesEqual pre post preR postR = true <;>
          simp [missSel, chgSel, unchSel, hfind, hc, hpost, he]
    · simp [missSel, chgSel, unchSel, hfind, hc]

theorem three_filter_length {p1 p2 p3 : String → Bool} : ∀ {l : List String},
    (∀ k ∈ l, ((p1 k && !p2 k && !p3 k) || (!p1 k && p2 k && !p3 k) ||
      (!p1 k && !p2 k && p3 k)) = true) →
    (l.filter p1).length + (l.filter p2).length + (l.filter p3).length = l.length := by
  intro l
  induction l with
  | nil => intro _; rfl
  | cons k ks ih =>
    intro h
    have hk := h k (List.mem_cons_self _ _)
    have ih' := ih (fun a ha => h a (List.mem_cons_of_mem _ ha))
    simp only [Bool.or_eq_true, Bool.and_eq_true, Bool.not_eq_true'] at hk
    rcases hk with (⟨⟨h1, h2⟩, h3⟩ | ⟨⟨h1, h2⟩, h3⟩) | ⟨⟨h1, h2⟩, h3⟩ <;>
      simp [List.filter_cons, h1, h2, h3] <;> omega

theorem missing_keys_eq (pre post : List Route) :
    (compareRoutes pre post).missingRoutes.map subnetKey =
      (dedupFirst (pre.map subnetKey)).filter
        (fun k => (missSel pre post k).isSome) := by
  unfold compareRoutes
  dsimp only
  rw [compareGo_eq]
  dsimp only
  exact map_filterMap_keys _ _ (fun k r h => missSel_key h) _

theorem changed_keys_eq (pre post : List Route) :
    (compareRoutes pre post).changedRoutes.map (·.subnet) =
      (dedupFirst (pre.map subnetKey)).filter
        (fun k => (chgSel pre post k).isSome) := by
  unfold compareRoutes
  dsimp only
  rw [compareGo_eq]
  dsimp only
  exact map_filterMap_keys _ _ (fun k e h => chgSel_key h) _

theorem unchanged_keys_eq (pre post : List Route) :
    (compareRoutes pre post).unchangedRoutes.map subnetKey =
      (dedupFirst (pre.map subnetKey)).filter
        (fun k => (unchSel pre post k).isSome) := by
  unfold compareRoutes
  dsimp only
  rw [compareGo_eq]
  dsimp only
  exact map_filterMap_keys _ _ (fun k r h => unchSel_key h) _

theorem added_keys_eq (pre post : List Route) :
    (compareRoutes pre post).addedRoutes.map subnetKey =
      (dedupFirst (post.map subnetKey)).filter
        (fun k => !(pre.map subnetKey).contains k) := by
  unfold compareRoutes
  dsimp only
  rw [map_filterMap_keys (listFind post) subnetKey (fun k r h => listFind_key h)]
  apply List.filter_eq_self.mpr
  intro k hkf
  have hk1 : k ∈ post.map subnetKey := mem_dedupFirst.mp (List.mem_of_mem_filter hkf)
  simpa using listFind_isSome_of_mem hk1

theorem bucketKeys_eq (pre post : List Route) :
    bucketKeys (compareRoutes pre post) =
      (dedupFirst (pre.map subnetKey)).filter
        (fun k => (missSel pre post k).isSome) ++
      (dedupFirst (pre.map subnetKey)).filter
        (fun k => (chgSel pre post k).isSome) ++
      (dedupFirst (pre.map subnetKey)).filter
        (fun k => (unchSel pre post k).isSome) := by
  unfold bucketKeys
  rw [missing_keys_eq, changed_keys_eq, unchanged_keys_eq]

/-- C1.  The comparison output partitions the subnet keys: every distinct
pre-side subnet key lands in exactly one of missing/changed/unchanged (and
never in added); every post-only subnet key lands in added and in none of
the pre-side buckets; and the missing, changed and unchanged bucket sizes
sum to the number of distinct pre-side subnet keys. -/
theorem c1_partition_of_keys (pre post : List Route) :
    (∀ k ∈ dedupFirst (pre.map subnetKey),
      List.count k (bucketKeys (compareRoutes pre post)) = 1 ∧
      k ∉ (compareRoutes pre post).addedRoutes.map subnetKey) ∧
    (∀ k ∈ post.map subnetKey, k ∉ pre.map subnetKey →
      k ∈ (compareRoutes pre post).addedRoutes.map subnetKey ∧
      List.count k (bucketKeys (compareRoutes pre post)) = 0) ∧
    ((compareRoutes pre post).missingRoutes.length +
      (compareRoutes pre post).changedRoutes.length +
      (compareRoutes pre post).unchangedRoutes.length =
      (pre.map subnetKey).toFinset.card) := by
  refine ⟨fun k hk => ⟨?_, ?_⟩, fun k hk hnk => ⟨?_, ?_⟩, ?_⟩
  · have hkm := mem_dedupFirst.mp hk
    rw [bucketKeys_eq]
    rw [List.count_append, List.count_append, count_filter_ite, count_filter_ite,
      count_filter_ite]
    have hone := sel_exactly_one post hkm
    have hcnt := List.count_eq_one_of_mem (nodup_dedupFirst _) hk
    simp only [Bool.or_eq_true, Bool.and_eq_true, Bool.not_eq_true'] at hone
    rcases hone with (⟨⟨h1, h2⟩, h3⟩ | ⟨⟨h1, h2⟩, h3⟩) | ⟨⟨h1, h2⟩, h3⟩ <;>
      simp [h1, h2, h3, hcnt]
  · have hkm := mem_dedupFirst.mp hk
    rw [added_keys_eq]
    intro hmem
    have hfalse := (List.mem_filter.mp hmem).2
    simp only [Bool.not_eq_true'] at hfalse
    have htrue : (pre.map subnetKey).contains k = true := by simpa using hkm
    rw [hfalse] at htrue
    exact absurd htrue (by simp)
  · rw [added_keys_eq]
    refine List.mem_filter.mpr ⟨mem_dedupFirst.mpr hk, ?_⟩
    simpa using hnk
  · rw [bucketKeys_eq]
    have hk0 : List.count k (dedupFirst (pre.map subnetKey)) = 0 :=
      List.count_eq_zero.mpr (fun hm => hnk (mem_dedupFirst.mp hm))
    rw [List.count_append, List.count_append, count_filter_ite, count_filter_ite,
      count_filter_ite, hk0]
    simp
  · have hmlen : (compareRoutes pre post).missingRoutes.length =
        ((dedupFirst (pre.map subnetKey)).filter
          (fun k => (missSel pre post k).isSome)).length := by
      rw [← missing_keys_eq]
      exact (List.length_map _ _).symm
    have hclen : (compareRoutes pre post).changedRoutes.length =
        ((dedupFirst (pre.map subnetKey)).filter
          (fun k => (chgSel pre post k).isSome)).length := by
      rw [← changed_keys_eq]
      exact (List.length_map _ _).symm
    have hulen : (compareRoutes pre post).unchangedRoutes.length =
        ((dedupFirst (pre.map subnetKey)).filter
          (fun k => (unchSel pre post k).isSome)).length := by
      rw [← unchanged_keys_eq]
      exact (List.length_map _ _).symm
    rw [hmlen, hclen, hulen,
      three_filter_length (fun k hkk => sel_exactly_one post (mem_dedupFirst.mp hkk)),
      length_dedupFirst_eq_card]

/-- Witness for C1: one shared subnet, one pre-only subnet, one post-only
subnet. -/
theorem c1_partition_of_keys_witness :
    ("10.2.0.0/16" ∈ dedupFirst
      (([{ destination := "10.1.1.0", prefixLength := (24 : Int),
           nextHop := some "1.1.1.1" },
         { destination := "10.2.0.0", prefixLength := (16 : Int),
           nextHop := some "1.1.1.2" }] : List Route).map subnetKey)) ∧
    List.count "10.2.0.0/16" (bucketKeys (compareRoutes
      [{ destination := "10.1.1.0", prefixLength := (24 : Int),
         nextHop := some "1.1.1.1" },
       { destination := "10.2.0.0", prefixLength := (16 : Int),
         nextHop := some "1.1.1.2" }]
      [{ destination := "10.1.1.0", prefixLength := (24 : Int),
         nextHop := some "1.1.1.1" },
       { destination := "10.3.0.0", prefixLength := (16 : Int),
         nextHop := some "1.1.1.9" }])) = 1 ∧
    ("10.3.0.0/16" ∈ (compareRoutes
      [{ destination := "10.1.1.0", prefixLength := (24 : Int),
         nextHop := some "1.1.1.1" },
       { destination := "10.2.0.0", prefixLength := (16 : Int),
         nextHop := some "1.1.1.2" }]
      [{ destination := "10.1.1.0", prefixLength := (24 : Int),
         nextHop := some "1.1.1.1" },
       { destination := "10.3.0.0", prefixLength := (16 : Int),
         nextHop := some "1.1.1.9" }]).addedRoutes.map subnetKey) ∧
    ((compareRoutes
      [{ destination := "10.1.1.0", prefixLength := (24 : Int),
         nextHop := some "1.1.1.1" },
       { destination := "10.2.0.0", prefixLength := (16 : Int),
         nextHop := some "1.1.1.2" }]
      [{ destination := "10.1.1.0", prefixLength := (24 : Int),
         nextHop := some "1.1.1.1" },
       { destination := "10.3.0.0", prefixLength := (16 : Int),
         nextHop := some "1.1.1.9" }]).missingRoutes.length +
     (compareRoutes
      [{ destination := "10.1.1.0", prefixLength := (24 : Int),
         nextHop := some "1.1.1.1" },
       { destination := "10.2.0.0", prefixLength := (16 : Int),
         nextHop := some "1.1.1.2" }]
      [{ destination := "10.1.1.0", prefixLength := (24 : Int),
         nextHop := some "1.1.1.1" },
       { destination := "10.3.0.0", prefixLength := (16 : Int),
         nextHop := some "1.1.1.9" }]).changedRoutes.length +
     (compareRoutes
      [{ destination := "10.1.1.0", prefixLength := (24 : Int),
         nextHop := some "1.1.1.1" },
       { destination := "10.2.0.0", prefixLength := (16 : Int),
         nextHop := some "1.1.1.2" }]
      [{ destination := "10.1.1.0", prefixLength := (24 : Int),
         nextHop := some "1.1.1.1" },
       { destination := "10.3.0.0", prefixLength := (16 : Int),
         nextHop := some "1.1.1.9" }]).unchangedRoutes.length =
     (([{ destination := "10.1.1.0", prefixLength := (24 : Int),
          nextHop := some "1.1.1.1" },
        { destination := "10.2.0.0", prefixLength := (16 : Int),
          nextHop := some "1.1.1.2" }] : List Route).map subnetKey).toFinset.card) :=
  ⟨by decide,
   ((c1_partition_of_keys
      [{ destination := "10.1.1.0", prefixLength := (24 : Int), nextHop := some "1.1.1.1" },
       { destination := "10.2.0.0", prefixLength := (16 : Int), nextHop := some "1.1.1.2" }]
      [{ destination := "10.1.1.0", prefixLength := (24 : Int), nextHop := some "1.1.1.1" },
       { destination := "10.3.0.0", prefixLength := (16 : Int), nextHop := some "1.1.1.9" }]).1
     "10.2.0.0/16" (by decide)).1,
   ((c1_partition_of_keys
      [{ destination := "10.1.1.0", prefixLength := (24 : Int), nextHop := some "1.1.1.1" },
       { destination := "10.2.0.0", prefixLength := (16 : Int), nextHop := some "1.1.1.2" }]
      [{ destination := "10.1.1.0", prefixLength := (24 : Int), nextHop := some "1.1.1.1" },
       { destination := "10.3.0.0", prefixLength := (16 : Int), nextHop := some "1.1.1.9" }]).2.1
     "10.3.0.0/16" (by decide) (by decide)).1,
   (c1_partition_of_keys
      [{ destination := "10.1.1.0", prefixLength := (24 : Int), nextHop := some "1.1.1.1" },
       { destination := "10.2.0.0", prefixLength := (16 : Int), nextHop := some "1.1.1.2" }]
      [{ destination := "10.1.1.0", prefixLength := (24 : Int), nextHop := some "1.1.1.1" },
       { destination := "10.3.0.0", prefixLength := (16 : Int), nextHop := some "1.1.1.9" }]).2.2⟩
